import Mathlib

/-!
# Replicated gameplay tag component

A shallow embedding of `UGameplayTagComponent`
(`TP_Components_GameplayTags.h` / `TP_Components_GameplayTags.cpp`).

The component is embedded by explicit state passing: every member function
takes the component state and returns the new state (together with its
return value when it has one).  The effects a member function has on its
surroundings are recorded in the state itself:

* `ForceNetUpdate()` calls are counted in the owning actor,
* `OnGameplayTagsChanged.Broadcast()` calls are counted in the delegate,
* calls of a `Server...` RPC stub are appended to `SentServerRPCs`.
-/

namespace GameplayTags

/-! ## Engine types used by the component -/

/-- The name carried by an empty tag (`NAME_None`). -/
def NAME_None : String := ""

/-- Modelled from the spec: the engine type `FGameplayTag`, declared in the
engine header `GameplayTagContainer.h`, which the repository only includes.
A tag is an opaque, immutable, string-like identifier compared by exact
value; it is valid when it is not the empty tag. -/
structure FGameplayTag where
  TagName : String
deriving DecidableEq

/-- The validity test `FGameplayTag::IsValid()` (the tag is not the empty tag). -/
def FGameplayTag.IsValid (Tag : FGameplayTag) : Bool :=
  decide (Tag.TagName ≠ NAME_None)

/-- Modelled from the spec: the engine type `FGameplayTagContainer` (the
TagSet), declared in the engine header `GameplayTagContainer.h`, which the
repository only includes.  It is a set of tags kept in an array: membership
is exact-value comparison without hierarchy matching, and the container
itself rejects no tag (admissibility is the job of the validator). -/
structure FGameplayTagContainer where
  GameplayTags : List FGameplayTag
deriving DecidableEq

/-- The membership query `contains(tag)`. -/
def FGameplayTagContainer.HasTag (C : FGameplayTagContainer) (TagToCheck : FGameplayTag) : Bool :=
  decide (TagToCheck ∈ C.GameplayTags)

/-- The insertion `add(tag)`: the tag is present afterwards, and a tag that is
already present is not stored a second time. -/
def FGameplayTagContainer.AddTag (C : FGameplayTagContainer) (TagToAdd : FGameplayTag) :
    FGameplayTagContainer :=
  if C.HasTag TagToAdd then C else { GameplayTags := C.GameplayTags ++ [TagToAdd] }

/-- The removal `remove(tag)`: the tag is absent afterwards. -/
def FGameplayTagContainer.RemoveTag (C : FGameplayTagContainer) (TagToRemove : FGameplayTag) :
    FGameplayTagContainer :=
  { GameplayTags := C.GameplayTags.filter (fun Tag => decide (Tag ≠ TagToRemove)) }

/-- The query `containsAll(tags)`. -/
def FGameplayTagContainer.HasAll (C ContainerToCheck : FGameplayTagContainer) : Bool :=
  ContainerToCheck.GameplayTags.all (fun Tag => C.HasTag Tag)

/-- The query `containsAny(tags)`. -/
def FGameplayTagContainer.HasAny (C ContainerToCheck : FGameplayTagContainer) : Bool :=
  ContainerToCheck.GameplayTags.any (fun Tag => C.HasTag Tag)

/-- Set equality of two containers (each holds every tag of the other); the
order in which the tags are stored plays no part. -/
def FGameplayTagContainer.SameTags (A B : FGameplayTagContainer) : Bool :=
  A.HasAll B && B.HasAll A

/-- The network roles of the engine (`ENetRole`), in increasing order. -/
inductive ENetRole where
  | ROLE_None
  | ROLE_SimulatedProxy
  | ROLE_AutonomousProxy
  | ROLE_Authority
  | ROLE_MAX
deriving DecidableEq

/-- The numeric value of a role, by which roles are compared. -/
def ENetRole.toNat : ENetRole → Nat
  | ROLE_None => 0
  | ROLE_SimulatedProxy => 1
  | ROLE_AutonomousProxy => 2
  | ROLE_Authority => 3
  | ROLE_MAX => 4

/-- Modelled from the spec: the owning actor (`AActor`, an engine type), as
far as the component uses it.  `bHasAuthority` is the host-provided fact that
`HasAuthority()` returns; `NetUpdates` counts the `ForceNetUpdate()` calls the
actor has received (dirty marking). -/
structure AActor where
  bHasAuthority : Bool
  NetUpdates : Nat
deriving DecidableEq

/-- The host query `AActor::HasAuthority()`. -/
def AActor.HasAuthority (A : AActor) : Bool := A.bHasAuthority

/-- The host hook `AActor::ForceNetUpdate()`: one more update was requested. -/
def AActor.ForceNetUpdate (A : AActor) : AActor :=
  { A with NetUpdates := A.NetUpdates + 1 }

/-- The multicast delegate `FOnGameplayTagsChanged`; `BroadcastCount` counts
the `Broadcast()` calls, each of which notifies every bound listener. -/
structure FOnGameplayTagsChanged where
  BroadcastCount : Nat
deriving DecidableEq

/-- One `Broadcast()` call on the delegate. -/
def FOnGameplayTagsChanged.Broadcast (D : FOnGameplayTagsChanged) : FOnGameplayTagsChanged :=
  { D with BroadcastCount := D.BroadcastCount + 1 }

/-- A request forwarded to the authority: one call of a server RPC stub. -/
inductive ServerRPC where
  | AddGameplayTag (NewTag : FGameplayTag)
  | RemoveGameplayTag (TagToRemove : FGameplayTag)
  | AddGameplayTags (NewTags : FGameplayTagContainer)
  | RemoveGameplayTags (TagsToRemove : FGameplayTagContainer)
deriving DecidableEq

/-! ## The component -/

/-- The state of a `UGameplayTagComponent` together with the part of its
surroundings that its member functions read or write.  `OwnerRole` is what
`GetOwnerRole()` returns and `Owner` what `GetOwner()` returns (both host
provided); `SentServerRPCs` lists the server RPC calls issued so far. -/
structure UGameplayTagComponent where
  OwnerRole : ENetRole
  Owner : Option AActor
  GameplayTagContainer : FGameplayTagContainer
  OnGameplayTagsChanged : FOnGameplayTagsChanged
  SentServerRPCs : List ServerRPC
deriving DecidableEq

namespace UGameplayTagComponent

/-- The host query `GetOwnerRole()`. -/
def GetOwnerRole (c : UGameplayTagComponent) : ENetRole := c.OwnerRole

/-- The host query `GetOwner()`. -/
def GetOwner (c : UGameplayTagComponent) : Option AActor := c.Owner

/-- The guard `!GetOwner() || !GetOwner()->HasAuthority()` that opens each of
the four `_Internal` functions. -/
def LacksAuthority (c : UGameplayTagComponent) : Bool :=
  match c.GetOwner with
  | none => true
  | some Owner => !Owner.HasAuthority

/-- The number of `ForceNetUpdate()` calls received by the owner (none when
there is no owner). -/
def NetUpdateCount (c : UGameplayTagComponent) : Nat :=
  match c.GetOwner with
  | none => 0
  | some Owner => Owner.NetUpdates

/-- The function `MarkDirtyForReplication`: force a network update on the
owner, if the owner exists. -/
def MarkDirtyForReplication (c : UGameplayTagComponent) : UGameplayTagComponent :=
  match c.GetOwner with
  | some Owner => { c with Owner := some Owner.ForceNetUpdate }
  | none => c

/-- The function `IsTagAllowed`: all valid tags are allowed. -/
def IsTagAllowed (_c : UGameplayTagComponent) (Tag : FGameplayTag) : Bool :=
  Tag.IsValid

/-! ### Internal tag modification -/

/-- The function `AddGameplayTag_Internal`. -/
def AddGameplayTag_Internal (c : UGameplayTagComponent) (NewTag : FGameplayTag) :
    Bool × UGameplayTagComponent :=
  if c.LacksAuthority then (false, c)
  else if c.GameplayTagContainer.HasTag NewTag then (false, c)
  else (true, { c with GameplayTagContainer := c.GameplayTagContainer.AddTag NewTag })

/-- The function `RemoveGameplayTag_Internal`. -/
def RemoveGameplayTag_Internal (c : UGameplayTagComponent) (TagToRemove : FGameplayTag) :
    Bool × UGameplayTagComponent :=
  if c.LacksAuthority then (false, c)
  else if !c.GameplayTagContainer.HasTag TagToRemove then (false, c)
  else (true, { c with GameplayTagContainer := c.GameplayTagContainer.RemoveTag TagToRemove })

/-- The loop of `AddGameplayTags_Internal` over the tags still to visit,
carrying the container and the flag `bChanged`. -/
def AddGameplayTags_Loop :
    List FGameplayTag → FGameplayTagContainer → Bool → Bool × FGameplayTagContainer
  | [], C, bChanged => (bChanged, C)
  | Tag :: Rest, C, bChanged =>
    if !C.HasTag Tag then AddGameplayTags_Loop Rest (C.AddTag Tag) true
    else AddGameplayTags_Loop Rest C bChanged

/-- The function `AddGameplayTags_Internal`. -/
def AddGameplayTags_Internal (c : UGameplayTagComponent) (NewTags : FGameplayTagContainer) :
    Bool × UGameplayTagComponent :=
  if c.LacksAuthority then (false, c)
  else
    let r := AddGameplayTags_Loop NewTags.GameplayTags c.GameplayTagContainer false
    (r.1, { c with GameplayTagContainer := r.2 })

/-- The loop of `RemoveGameplayTags_Internal` over the tags still to visit,
carrying the container and the flag `bChanged`. -/
def RemoveGameplayTags_Loop :
    List FGameplayTag → FGameplayTagContainer → Bool → Bool × FGameplayTagContainer
  | [], C, bChanged => (bChanged, C)
  | Tag :: Rest, C, bChanged =>
    if C.HasTag Tag then RemoveGameplayTags_Loop Rest (C.RemoveTag Tag) true
    else RemoveGameplayTags_Loop Rest C bChanged

/-- The function `RemoveGameplayTags_Internal`. -/
def RemoveGameplayTags_Internal (c : UGameplayTagComponent) (TagsToRemove : FGameplayTagContainer) :
    Bool × UGameplayTagComponent :=
  if c.LacksAuthority then (false, c)
  else
    let r := RemoveGameplayTags_Loop TagsToRemove.GameplayTags c.GameplayTagContainer false
    (r.1, { c with GameplayTagContainer := r.2 })

/-! ### Server RPCs -/

/-- Modelled from the spec: the calling side of the RPCs declared
`UFUNCTION(Server, Reliable, WithValidation)`; the engine generates it and it
is not part of the repository.  Calling the stub forwards the request to the
authority over the external channel and touches nothing else. -/
def CallServerRPC (c : UGameplayTagComponent) (Request : ServerRPC) : UGameplayTagComponent :=
  { c with SentServerRPCs := c.SentServerRPCs ++ [Request] }

/-- The RPC stub `ServerAddGameplayTag`. -/
def ServerAddGameplayTag (c : UGameplayTagComponent) (NewTag : FGameplayTag) :
    UGameplayTagComponent :=
  c.CallServerRPC (ServerRPC.AddGameplayTag NewTag)

/-- The RPC stub `ServerRemoveGameplayTag`. -/
def ServerRemoveGameplayTag (c : UGameplayTagComponent) (TagToRemove : FGameplayTag) :
    UGameplayTagComponent :=
  c.CallServerRPC (ServerRPC.RemoveGameplayTag TagToRemove)

/-- The RPC stub `ServerAddGameplayTags`. -/
def ServerAddGameplayTags (c : UGameplayTagComponent) (NewTags : FGameplayTagContainer) :
    UGameplayTagComponent :=
  c.CallServerRPC (ServerRPC.AddGameplayTags NewTags)

/-- The RPC stub `ServerRemoveGameplayTags`. -/
def ServerRemoveGameplayTags (c : UGameplayTagComponent) (TagsToRemove : FGameplayTagContainer) :
    UGameplayTagComponent :=
  c.CallServerRPC (ServerRPC.RemoveGameplayTags TagsToRemove)

/-- The function `ServerAddGameplayTag_Validate`. -/
def ServerAddGameplayTag_Validate (c : UGameplayTagComponent) (NewTag : FGameplayTag) : Bool :=
  NewTag.IsValid && c.IsTagAllowed NewTag

/-- The function `ServerAddGameplayTag_Implementation`. -/
def ServerAddGameplayTag_Implementation (c : UGameplayTagComponent) (NewTag : FGameplayTag) :
    UGameplayTagComponent :=
  let r := c.AddGameplayTag_Internal NewTag
  if r.1 then r.2.MarkDirtyForReplication else r.2

/-- The function `ServerRemoveGameplayTag_Validate`. -/
def ServerRemoveGameplayTag_Validate (c : UGameplayTagComponent) (TagToRemove : FGameplayTag) :
    Bool :=
  TagToRemove.IsValid && c.IsTagAllowed TagToRemove

/-- The function `ServerRemoveGameplayTag_Implementation`. -/
def ServerRemoveGameplayTag_Implementation (c : UGameplayTagComponent)
    (TagToRemove : FGameplayTag) : UGameplayTagComponent :=
  let r := c.RemoveGameplayTag_Internal TagToRemove
  if r.1 then r.2.MarkDirtyForReplication else r.2

/-- The loop shared in shape by the two batch `_Validate` functions: the first
tag that is invalid or not allowed makes it return false. -/
def ValidateTags_Loop (c : UGameplayTagComponent) : List FGameplayTag → Bool
  | [] => true
  | Tag :: Rest =>
    if !Tag.IsValid || !c.IsTagAllowed Tag then false
    else ValidateTags_Loop c Rest

/-- The function `ServerAddGameplayTags_Validate`. -/
def ServerAddGameplayTags_Validate (c : UGameplayTagComponent) (NewTags : FGameplayTagContainer) :
    Bool :=
  c.ValidateTags_Loop NewTags.GameplayTags

/-- The function `ServerAddGameplayTags_Implementation`. -/
def ServerAddGameplayTags_Implementation (c : UGameplayTagComponent)
    (NewTags : FGameplayTagContainer) : UGameplayTagComponent :=
  let r := c.AddGameplayTags_Internal NewTags
  if r.1 then r.2.MarkDirtyForReplication else r.2

/-- The function `ServerRemoveGameplayTags_Validate`. -/
def ServerRemoveGameplayTags_Validate (c : UGameplayTagComponent)
    (TagsToRemove : FGameplayTagContainer) : Bool :=
  c.ValidateTags_Loop TagsToRemove.GameplayTags

/-- The function `ServerRemoveGameplayTags_Implementation`. -/
def ServerRemoveGameplayTags_Implementation (c : UGameplayTagComponent)
    (TagsToRemove : FGameplayTagContainer) : UGameplayTagComponent :=
  let r := c.RemoveGameplayTags_Internal TagsToRemove
  if r.1 then r.2.MarkDirtyForReplication else r.2

/-- Modelled from the spec: the receiving side of the RPCs declared
`UFUNCTION(Server, Reliable, WithValidation)`; the engine generates it and it
is not part of the repository.  The authority runs the `_Validate` function
of the request first; a request that fails it is refused whole and has no
effect, a request that passes it is handed to the `_Implementation`. -/
def ReceiveServerRPC (c : UGameplayTagComponent) : ServerRPC → UGameplayTagComponent
  | ServerRPC.AddGameplayTag NewTag =>
    if c.ServerAddGameplayTag_Validate NewTag
    then c.ServerAddGameplayTag_Implementation NewTag else c
  | ServerRPC.RemoveGameplayTag TagToRemove =>
    if c.ServerRemoveGameplayTag_Validate TagToRemove
    then c.ServerRemoveGameplayTag_Implementation TagToRemove else c
  | ServerRPC.AddGameplayTags NewTags =>
    if c.ServerAddGameplayTags_Validate NewTags
    then c.ServerAddGameplayTags_Implementation NewTags else c
  | ServerRPC.RemoveGameplayTags TagsToRemove =>
    if c.ServerRemoveGameplayTags_Validate TagsToRemove
    then c.ServerRemoveGameplayTags_Implementation TagsToRemove else c

/-! ### Request functions -/

/-- The function `RequestAddGameplayTag`. -/
def RequestAddGameplayTag (c : UGameplayTagComponent) (NewTag : FGameplayTag) :
    UGameplayTagComponent :=
  if c.GetOwnerRole.toNat < ENetRole.ROLE_Authority.toNat then c.ServerAddGameplayTag NewTag
  else
    let r := c.AddGameplayTag_Internal NewTag
    if r.1 then r.2.MarkDirtyForReplication else r.2

/-- The function `RequestRemoveGameplayTag`. -/
def RequestRemoveGameplayTag (c : UGameplayTagComponent) (TagToRemove : FGameplayTag) :
    UGameplayTagComponent :=
  if c.GetOwnerRole.toNat < ENetRole.ROLE_Authority.toNat then
    c.ServerRemoveGameplayTag TagToRemove
  else
    let r := c.RemoveGameplayTag_Internal TagToRemove
    if r.1 then r.2.MarkDirtyForReplication else r.2

/-- The function `RequestAddGameplayTags`. -/
def RequestAddGameplayTags (c : UGameplayTagComponent) (NewTags : FGameplayTagContainer) :
    UGameplayTagComponent :=
  if c.GetOwnerRole.toNat < ENetRole.ROLE_Authority.toNat then c.ServerAddGameplayTags NewTags
  else
    let r := c.AddGameplayTags_Internal NewTags
    if r.1 then r.2.MarkDirtyForReplication else r.2

/-- The function `RequestRemoveGameplayTags`. -/
def RequestRemoveGameplayTags (c : UGameplayTagComponent) (TagsToRemove : FGameplayTagContainer) :
    UGameplayTagComponent :=
  if c.GetOwnerRole.toNat < ENetRole.ROLE_Authority.toNat then
    c.ServerRemoveGameplayTags TagsToRemove
  else
    let r := c.RemoveGameplayTags_Internal TagsToRemove
    if r.1 then r.2.MarkDirtyForReplication else r.2

/-! ### Tag queries -/

/-- The function `HasGameplayTag`. -/
def HasGameplayTag (c : UGameplayTagComponent) (Tag : FGameplayTag) : Bool :=
  c.GameplayTagContainer.HasTag Tag

/-- The function `HasAllGameplayTags`. -/
def HasAllGameplayTags (c : UGameplayTagComponent) (TagsToCheck : FGameplayTagContainer) : Bool :=
  c.GameplayTagContainer.HasAll TagsToCheck

/-- The function `HasAnyGameplayTags`. -/
def HasAnyGameplayTags (c : UGameplayTagComponent) (TagsToCheck : FGameplayTagContainer) : Bool :=
  c.GameplayTagContainer.HasAny TagsToCheck

/-- The function `GetAllGameplayTags`. -/
def GetAllGameplayTags (c : UGameplayTagComponent) : FGameplayTagContainer :=
  c.GameplayTagContainer

/-! ### Replication notification -/

/-- The function `OnRep_GameplayTags`: broadcast the delegate. -/
def OnRep_GameplayTags (c : UGameplayTagComponent) : UGameplayTagComponent :=
  { c with OnGameplayTagsChanged := c.OnGameplayTagsChanged.Broadcast }

/-- Modelled from the spec: the observer side of the replication of the
property declared `ReplicatedUsing = OnRep_GameplayTags`
(`onSnapshotReceived`); the engine performs it and it is not part of the
repository.  The inbound snapshot replaces the local mirror wholesale, and if
it differs from the prior mirror (set equality) `OnRep_GameplayTags` is called
once. -/
def ReceiveSnapshot (c : UGameplayTagComponent) (NewSnapshot : FGameplayTagContainer) :
    UGameplayTagComponent :=
  let c1 := { c with GameplayTagContainer := NewSnapshot }
  if c.GameplayTagContainer.SameTags NewSnapshot then c1 else c1.OnRep_GameplayTags

/-- The number of times the change listeners have been notified. -/
def NotifyCount (c : UGameplayTagComponent) : Nat :=
  c.OnGameplayTagsChanged.BroadcastCount

/-- The component has authority over its tag state: its owner exists and has
authority, and the owner role is the authority role. -/
def IsAuthority (c : UGameplayTagComponent) : Prop :=
  c.GetOwnerRole = ENetRole.ROLE_Authority ∧ c.LacksAuthority = false

/-- The component is an observer: its owner role is below the authority role. -/
def IsObserver (c : UGameplayTagComponent) : Prop :=
  c.GetOwnerRole.toNat < ENetRole.ROLE_Authority.toNat

instance (c : UGameplayTagComponent) : Decidable c.IsAuthority := by
  unfold IsAuthority; infer_instance

instance (c : UGameplayTagComponent) : Decidable c.IsObserver := by
  unfold IsObserver; infer_instance

end UGameplayTagComponent

/-! ## Concrete inputs -/

/-- The tag with the given name. -/
def mkTag (Name : String) : FGameplayTag := { TagName := Name }

/-- The container holding the tags with the given names, in that order. -/
def mkTags (Names : List String) : FGameplayTagContainer :=
  { GameplayTags := Names.map mkTag }

/-- An authority component holding the tags with the given names: the owner
exists and has authority, nothing was sent, broadcast or marked dirty yet. -/
def mkAuthority (Names : List String) : UGameplayTagComponent :=
  { OwnerRole := ENetRole.ROLE_Authority
    Owner := some { bHasAuthority := true, NetUpdates := 0 }
    GameplayTagContainer := mkTags Names
    OnGameplayTagsChanged := { BroadcastCount := 0 }
    SentServerRPCs := [] }

/-- An observer component (a simulated proxy) mirroring the tags with the
given names: the owner exists and has no authority. -/
def mkObserver (Names : List String) : UGameplayTagComponent :=
  { OwnerRole := ENetRole.ROLE_SimulatedProxy
    Owner := some { bHasAuthority := false, NetUpdates := 0 }
    GameplayTagContainer := mkTags Names
    OnGameplayTagsChanged := { BroadcastCount := 0 }
    SentServerRPCs := [] }

/-! ## Notions used to state the properties -/

/-- The tags in which two containers differ: those held by exactly one of the
two, each listed once. -/
def FGameplayTagContainer.DiffTags (A B : FGameplayTagContainer) : List FGameplayTag :=
  (A.GameplayTags.filter (fun Tag => !B.HasTag Tag)
    ++ B.GameplayTags.filter (fun Tag => !A.HasTag Tag)).dedup

/-- What an `_Internal` function may do to the component `c`, `r` being its
result: it touches nothing but the tag container, it returns true exactly when
the tag set differs afterwards, and it returns true only with authority. -/
def UGameplayTagComponent.InternalEffect (c : UGameplayTagComponent)
    (r : Bool × UGameplayTagComponent) : Prop :=
  r.2 = { c with GameplayTagContainer := r.2.GameplayTagContainer } ∧
  r.1 = (!c.GameplayTagContainer.SameTags r.2.GameplayTagContainer) ∧
  (r.1 = true → c.LacksAuthority = false)

/-- Dirty marking between the component `c` before and `d` after a call: the
owner received exactly one `ForceNetUpdate()` if the tag set of `d` differs
from that of `c`, and none if it does not. -/
def UGameplayTagComponent.DirtyIffChanged (c d : UGameplayTagComponent) : Prop :=
  d.NetUpdateCount
    = c.NetUpdateCount + (if c.GameplayTagContainer.SameTags d.GameplayTagContainer then 0 else 1)

/-- What a request or an RPC handler does to its surroundings, `c` being the
component before and `d` after: the owner is marked dirty once if the tag set
differs and not at all otherwise, no listener is notified, and the list of
forwarded requests grows by `Sent`. -/
def UGameplayTagComponent.RequestEffect (c d : UGameplayTagComponent) (Sent : List ServerRPC) :
    Prop :=
  c.DirtyIffChanged d ∧
  d.NotifyCount = c.NotifyCount ∧
  d.SentServerRPCs = c.SentServerRPCs ++ Sent

/-- The single operations in turn: `AddGameplayTag_Internal` applied to each
tag of the list, one after the other, returning the disjunction of the
individual results. -/
def UGameplayTagComponent.AddGameplayTag_Each (c : UGameplayTagComponent) :
    List FGameplayTag → Bool × UGameplayTagComponent
  | [] => (false, c)
  | Tag :: Rest =>
    let r := c.AddGameplayTag_Internal Tag
    let q := AddGameplayTag_Each r.2 Rest
    (r.1 || q.1, q.2)

/-- The single operations in turn: `RemoveGameplayTag_Internal` applied to
each tag of the list, one after the other, returning the disjunction of the
individual results. -/
def UGameplayTagComponent.RemoveGameplayTag_Each (c : UGameplayTagComponent) :
    List FGameplayTag → Bool × UGameplayTagComponent
  | [] => (false, c)
  | Tag :: Rest =>
    let r := c.RemoveGameplayTag_Internal Tag
    let q := RemoveGameplayTag_Each r.2 Rest
    (r.1 || q.1, q.2)

/-- A call of one of the public operations of the component: one of the four
`Request` functions, or the arrival of a server RPC, which is guarded by its
`_Validate` function. -/
inductive PublicCall where
  | RequestAdd (NewTag : FGameplayTag)
  | RequestRemove (TagToRemove : FGameplayTag)
  | RequestAddBatch (NewTags : FGameplayTagContainer)
  | RequestRemoveBatch (TagsToRemove : FGameplayTagContainer)
  | Receive (Request : ServerRPC)
deriving DecidableEq

/-- The component after one public call. -/
def UGameplayTagComponent.Step (c : UGameplayTagComponent) : PublicCall → UGameplayTagComponent
  | PublicCall.RequestAdd NewTag => c.RequestAddGameplayTag NewTag
  | PublicCall.RequestRemove TagToRemove => c.RequestRemoveGameplayTag TagToRemove
  | PublicCall.RequestAddBatch NewTags => c.RequestAddGameplayTags NewTags
  | PublicCall.RequestRemoveBatch TagsToRemove => c.RequestRemoveGameplayTags TagsToRemove
  | PublicCall.Receive Request => c.ReceiveServerRPC Request

/-- The component after a sequence of public calls, the first call first. -/
def UGameplayTagComponent.Run (c : UGameplayTagComponent) : List PublicCall → UGameplayTagComponent
  | [] => c
  | Call :: Rest => Run (c.Step Call) Rest

/-! ## The component over an insertion of the engine container

The insertion `FGameplayTagContainer::AddTag` is engine code that the
repository only calls.  The definitions of this section are the functions of
the component that reach it, with the insertion taken as the parameter `Add`;
everything else is as above, and at `FGameplayTagContainer.AddTag` they are
the definitions above. -/

/-- An insertion of a tag into a container, standing for the engine function
`FGameplayTagContainer::AddTag`. -/
@[reducible]
def TagInsertion : Type := FGameplayTagContainer → FGameplayTag → FGameplayTagContainer

namespace UGameplayTagComponent

/-- The function `AddGameplayTag_Internal` over the insertion `Add`. -/
def AddGameplayTag_Internal_Over (Add : TagInsertion) (c : UGameplayTagComponent)
    (NewTag : FGameplayTag) : Bool × UGameplayTagComponent :=
  if c.LacksAuthority then (false, c)
  else if c.GameplayTagContainer.HasTag NewTag then (false, c)
  else (true, { c with GameplayTagContainer := Add c.GameplayTagContainer NewTag })

/-- The loop of `AddGameplayTags_Internal` over the insertion `Add`. -/
def AddGameplayTags_Loop_Over (Add : TagInsertion) :
    List FGameplayTag → FGameplayTagContainer → Bool → Bool × FGameplayTagContainer
  | [], C, bChanged => (bChanged, C)
  | Tag :: Rest, C, bChanged =>
    if !C.HasTag Tag then AddGameplayTags_Loop_Over Add Rest (Add C Tag) true
    else AddGameplayTags_Loop_Over Add Rest C bChanged

/-- The function `AddGameplayTags_Internal` over the insertion `Add`. -/
def AddGameplayTags_Internal_Over (Add : TagInsertion) (c : UGameplayTagComponent)
    (NewTags : FGameplayTagContainer) : Bool × UGameplayTagComponent :=
  if c.LacksAuthority then (false, c)
  else
    let r := AddGameplayTags_Loop_Over Add NewTags.GameplayTags c.GameplayTagContainer false
    (r.1, { c with GameplayTagContainer := r.2 })

/-- The function `ServerAddGameplayTag_Implementation` over the insertion
`Add`. -/
def ServerAddGameplayTag_Implementation_Over (Add : TagInsertion) (c : UGameplayTagComponent)
    (NewTag : FGameplayTag) : UGameplayTagComponent :=
  let r := c.AddGameplayTag_Internal_Over Add NewTag
  if r.1 then r.2.MarkDirtyForReplication else r.2

/-- The function `ServerAddGameplayTags_Implementation` over the insertion
`Add`. -/
def ServerAddGameplayTags_Implementation_Over (Add : TagInsertion) (c : UGameplayTagComponent)
    (NewTags : FGameplayTagContainer) : UGameplayTagComponent :=
  let r := c.AddGameplayTags_Internal_Over Add NewTags
  if r.1 then r.2.MarkDirtyForReplication else r.2

/-- The receiving side of the server RPCs (see `ReceiveServerRPC`) over the
insertion `Add`: the `_Validate` function first, then the `_Implementation`. -/
def ReceiveServerRPC_Over (Add : TagInsertion) (c : UGameplayTagComponent) :
    ServerRPC → UGameplayTagComponent
  | ServerRPC.AddGameplayTag NewTag =>
    if c.ServerAddGameplayTag_Validate NewTag
    then c.ServerAddGameplayTag_Implementation_Over Add NewTag else c
  | ServerRPC.RemoveGameplayTag TagToRemove =>
    if c.ServerRemoveGameplayTag_Validate TagToRemove
    then c.ServerRemoveGameplayTag_Implementation TagToRemove else c
  | ServerRPC.AddGameplayTags NewTags =>
    if c.ServerAddGameplayTags_Validate NewTags
    then c.ServerAddGameplayTags_Implementation_Over Add NewTags else c
  | ServerRPC.RemoveGameplayTags TagsToRemove =>
    if c.ServerRemoveGameplayTags_Validate TagsToRemove
    then c.ServerRemoveGameplayTags_Implementation TagsToRemove else c

/-- The function `RequestAddGameplayTag` over the insertion `Add`. -/
def RequestAddGameplayTag_Over (Add : TagInsertion) (c : UGameplayTagComponent)
    (NewTag : FGameplayTag) : UGameplayTagComponent :=
  if c.GetOwnerRole.toNat < ENetRole.ROLE_Authority.toNat then c.ServerAddGameplayTag NewTag
  else
    let r := c.AddGameplayTag_Internal_Over Add NewTag
    if r.1 then r.2.MarkDirtyForReplication else r.2

/-- The function `RequestAddGameplayTags` over the insertion `Add`. -/
def RequestAddGameplayTags_Over (Add : TagInsertion) (c : UGameplayTagComponent)
    (NewTags : FGameplayTagContainer) : UGameplayTagComponent :=
  if c.GetOwnerRole.toNat < ENetRole.ROLE_Authority.toNat then c.ServerAddGameplayTags NewTags
  else
    let r := c.AddGameplayTags_Internal_Over Add NewTags
    if r.1 then r.2.MarkDirtyForReplication else r.2

/-- The component after one public call, over the insertion `Add`. -/
def Step_Over (Add : TagInsertion) (c : UGameplayTagComponent) :
    PublicCall → UGameplayTagComponent
  | PublicCall.RequestAdd NewTag => c.RequestAddGameplayTag_Over Add NewTag
  | PublicCall.RequestRemove TagToRemove => c.RequestRemoveGameplayTag TagToRemove
  | PublicCall.RequestAddBatch NewTags => c.RequestAddGameplayTags_Over Add NewTags
  | PublicCall.RequestRemoveBatch TagsToRemove => c.RequestRemoveGameplayTags TagsToRemove
  | PublicCall.Receive Request => c.ReceiveServerRPC_Over Add Request

/-- The component after a sequence of public calls, the first call first, over
the insertion `Add`. -/
def Run_Over (Add : TagInsertion) (c : UGameplayTagComponent) :
    List PublicCall → UGameplayTagComponent
  | [] => c
  | Call :: Rest => Run_Over Add (c.Step_Over Add Call) Rest

end UGameplayTagComponent

/-! ## Facts about the tag container -/

namespace FGameplayTagContainer

theorem HasTag_iff (C : FGameplayTagContainer) (x : FGameplayTag) :
    C.HasTag x = true ↔ x ∈ C.GameplayTags := by
  simp [HasTag]

theorem HasTag_eq_false_iff (C : FGameplayTagContainer) (x : FGameplayTag) :
    C.HasTag x = false ↔ x ∉ C.GameplayTags := by
  simp [HasTag]

theorem HasTag_AddTag (C : FGameplayTagContainer) (t x : FGameplayTag) :
    (C.AddTag t).HasTag x = (C.HasTag x || decide (x = t)) := by
  unfold AddTag
  by_cases h : C.HasTag t = true
  · by_cases hx : x = t
    · subst hx; simp [h]
    · simp [h, hx]
  · simp only [h, Bool.false_eq_true, if_false]
    simp [HasTag]

theorem HasTag_RemoveTag (C : FGameplayTagContainer) (t x : FGameplayTag) :
    (C.RemoveTag t).HasTag x = (C.HasTag x && decide (x ≠ t)) := by
  simp [RemoveTag, HasTag]

theorem AddTag_of_HasTag (C : FGameplayTagContainer) (t : FGameplayTag)
    (h : C.HasTag t = true) : C.AddTag t = C := by
  simp [AddTag, h]

theorem HasAll_iff (A B : FGameplayTagContainer) :
    A.HasAll B = true ↔ ∀ x, B.HasTag x = true → A.HasTag x = true := by
  simp [HasAll, HasTag]

theorem SameTags_iff (A B : FGameplayTagContainer) :
    A.SameTags B = true ↔ ∀ x, A.HasTag x = B.HasTag x := by
  simp only [SameTags, Bool.and_eq_true, HasAll_iff]
  constructor
  · rintro ⟨h1, h2⟩ x
    cases hA : A.HasTag x <;> cases hB : B.HasTag x <;> simp_all
  · intro h
    exact ⟨fun x hx => by rw [h x]; exact hx, fun x hx => by rw [← h x]; exact hx⟩

theorem SameTags_self (A : FGameplayTagContainer) : A.SameTags A = true :=
  (SameTags_iff A A).2 (fun _ => rfl)

theorem SameTags_eq_false_of_differ (A B : FGameplayTagContainer) (x : FGameplayTag)
    (h : A.HasTag x ≠ B.HasTag x) : A.SameTags B = false := by
  cases hs : A.SameTags B
  · rfl
  · exact absurd ((SameTags_iff A B).1 hs x) h

end FGameplayTagContainer

/-! ## Facts about the loops and the internal functions -/

namespace UGameplayTagComponent

open FGameplayTagContainer

theorem AddGameplayTags_Loop_HasTag (T : List FGameplayTag) :
    ∀ (C : FGameplayTagContainer) (b : Bool) (x : FGameplayTag),
      (AddGameplayTags_Loop T C b).2.HasTag x = (C.HasTag x || decide (x ∈ T)) := by
  induction T with
  | nil => intro C b x; simp [AddGameplayTags_Loop]
  | cons t Rest ih =>
    intro C b x
    unfold AddGameplayTags_Loop
    by_cases h : C.HasTag t = true
    · simp only [h, Bool.not_true, Bool.false_eq_true, if_false, ih]
      by_cases hx : x = t
      · subst hx; simp [h]
      · simp [hx]
    · simp only [h, Bool.not_false, if_true, ih, HasTag_AddTag, Bool.not_eq_true] at *
      by_cases hx : x = t
      · subst hx; simp
      · simp [hx]

theorem AddGameplayTags_Loop_changed (T : List FGameplayTag) :
    ∀ (C : FGameplayTagContainer) (b : Bool),
      (AddGameplayTags_Loop T C b).1 = (b || T.any (fun t => !C.HasTag t)) := by
  induction T with
  | nil => intro C b; simp [AddGameplayTags_Loop]
  | cons t Rest ih =>
    intro C b
    unfold AddGameplayTags_Loop
    by_cases h : C.HasTag t = true
    · simp [h, ih]
    · simp [h, ih]

theorem AddGameplayTags_Loop_unchanged (T : List FGameplayTag) :
    ∀ (C : FGameplayTagContainer) (b : Bool),
      (∀ t ∈ T, C.HasTag t = true) → AddGameplayTags_Loop T C b = (b, C) := by
  induction T with
  | nil => intro C b _; simp [AddGameplayTags_Loop]
  | cons t Rest ih =>
    intro C b hall
    unfold AddGameplayTags_Loop
    have ht : C.HasTag t = true := hall t (List.mem_cons_self _ _)
    simp only [ht, Bool.not_true, Bool.false_eq_true, if_false]
    exact ih C b (fun u hu => hall u (List.mem_cons_of_mem _ hu))

theorem RemoveGameplayTags_Loop_HasTag (T : List FGameplayTag) :
    ∀ (C : FGameplayTagContainer) (b : Bool) (x : FGameplayTag),
      (RemoveGameplayTags_Loop T C b).2.HasTag x = (C.HasTag x && !decide (x ∈ T)) := by
  induction T with
  | nil => intro C b x; simp [RemoveGameplayTags_Loop]
  | cons t Rest ih =>
    intro C b x
    unfold RemoveGameplayTags_Loop
    by_cases h : C.HasTag t = true
    · simp only [h, if_true, ih, HasTag_RemoveTag]
      by_cases hx : x = t
      · subst hx; simp
      · simp [hx]
    · simp only [h, Bool.false_eq_true, if_false, ih]
      by_cases hx : x = t
      · subst hx; simp at h; simp [h]
      · simp [hx]

theorem RemoveGameplayTags_Loop_changed (T : List FGameplayTag) :
    ∀ (C : FGameplayTagContainer) (b : Bool),
      (RemoveGameplayTags_Loop T C b).1 = (b || T.any (fun t => C.HasTag t)) := by
  induction T with
  | nil => intro C b; simp [RemoveGameplayTags_Loop]
  | cons t Rest ih =>
    intro C b
    unfold RemoveGameplayTags_Loop
    by_cases h : C.HasTag t = true
    · simp [h, ih]
    · simp [h, ih]

theorem RemoveGameplayTags_Loop_unchanged (T : List FGameplayTag) :
    ∀ (C : FGameplayTagContainer) (b : Bool),
      (∀ t ∈ T, C.HasTag t = false) → RemoveGameplayTags_Loop T C b = (b, C) := by
  induction T with
  | nil => intro C b _; simp [RemoveGameplayTags_Loop]
  | cons t Rest ih =>
    intro C b hall
    unfold RemoveGameplayTags_Loop
    have ht : C.HasTag t = false := hall t (List.mem_cons_self _ _)
    simp only [ht, Bool.false_eq_true, if_false]
    exact ih C b (fun u hu => hall u (List.mem_cons_of_mem _ hu))

end UGameplayTagComponent

namespace UGameplayTagComponent

open FGameplayTagContainer

theorem AddGameplayTag_Internal_effect (c : UGameplayTagComponent) (t : FGameplayTag) :
    c.InternalEffect (c.AddGameplayTag_Internal t) := by
  unfold InternalEffect AddGameplayTag_Internal
  by_cases hA : c.LacksAuthority = true
  · simp [hA, SameTags_self]
  · by_cases hT : c.GameplayTagContainer.HasTag t = true
    · simp [hA, hT, SameTags_self]
    · simp only [hA, hT, Bool.false_eq_true, if_false, true_and]
      refine ⟨?_, fun _ => trivial⟩
      have : c.GameplayTagContainer.SameTags (c.GameplayTagContainer.AddTag t) = false :=
        SameTags_eq_false_of_differ _ _ t (by simp [HasTag_AddTag, hT])
      simp [this]

theorem RemoveGameplayTag_Internal_effect (c : UGameplayTagComponent) (t : FGameplayTag) :
    c.InternalEffect (c.RemoveGameplayTag_Internal t) := by
  unfold InternalEffect RemoveGameplayTag_Internal
  by_cases hA : c.LacksAuthority = true
  · simp [hA, SameTags_self]
  · by_cases hT : c.GameplayTagContainer.HasTag t = true
    · simp only [hA, hT, Bool.not_true, Bool.false_eq_true, if_false, true_and]
      refine ⟨?_, fun _ => trivial⟩
      have : c.GameplayTagContainer.SameTags (c.GameplayTagContainer.RemoveTag t) = false :=
        SameTags_eq_false_of_differ _ _ t (by simp [HasTag_RemoveTag, hT])
      simp [this]
    · simp [hA, hT, SameTags_self]

theorem AddGameplayTags_Internal_effect (c : UGameplayTagComponent) (T : FGameplayTagContainer) :
    c.InternalEffect (c.AddGameplayTags_Internal T) := by
  unfold InternalEffect AddGameplayTags_Internal
  by_cases hA : c.LacksAuthority = true
  · simp [hA, SameTags_self]
  · simp only [hA, Bool.false_eq_true, if_false, true_and]
    refine ⟨?_, fun _ => trivial⟩
    by_cases hall : ∀ t ∈ T.GameplayTags, c.GameplayTagContainer.HasTag t = true
    · rw [AddGameplayTags_Loop_unchanged _ _ _ hall]
      simp [SameTags_self]
    · push_neg at hall
      obtain ⟨t, htT, htC⟩ := hall
      have h1 : (AddGameplayTags_Loop T.GameplayTags c.GameplayTagContainer false).1 = true := by
        rw [AddGameplayTags_Loop_changed]
        simp only [Bool.false_or, List.any_eq_true]
        exact ⟨t, htT, by simpa using htC⟩
      have h2 : c.GameplayTagContainer.SameTags
          (AddGameplayTags_Loop T.GameplayTags c.GameplayTagContainer false).2 = false :=
        SameTags_eq_false_of_differ _ _ t (by
          rw [AddGameplayTags_Loop_HasTag]
          simp [htT, htC])
      simp [h1, h2]

theorem RemoveGameplayTags_Internal_effect (c : UGameplayTagComponent)
    (T : FGameplayTagContainer) : c.InternalEffect (c.RemoveGameplayTags_Internal T) := by
  unfold InternalEffect RemoveGameplayTags_Internal
  by_cases hA : c.LacksAuthority = true
  · simp [hA, SameTags_self]
  · simp only [hA, Bool.false_eq_true, if_false, true_and]
    refine ⟨?_, fun _ => trivial⟩
    by_cases hall : ∀ t ∈ T.GameplayTags, c.GameplayTagContainer.HasTag t = false
    · rw [RemoveGameplayTags_Loop_unchanged _ _ _ hall]
      simp [SameTags_self]
    · push_neg at hall
      obtain ⟨t, htT, htC⟩ := hall
      have htC1 : c.GameplayTagContainer.HasTag t = true := by simpa using htC
      have h1 : (RemoveGameplayTags_Loop T.GameplayTags c.GameplayTagContainer false).1 = true := by
        rw [RemoveGameplayTags_Loop_changed]
        simp only [Bool.false_or, List.any_eq_true]
        exact ⟨t, htT, htC1⟩
      have h2 : c.GameplayTagContainer.SameTags
          (RemoveGameplayTags_Loop T.GameplayTags c.GameplayTagContainer false).2 = false :=
        SameTags_eq_false_of_differ _ _ t (by
          rw [RemoveGameplayTags_Loop_HasTag]
          simp [htT, htC1])
      simp [h1, h2]

theorem NetUpdateCount_MarkDirty (c : UGameplayTagComponent) (h : c.LacksAuthority = false) :
    c.MarkDirtyForReplication.NetUpdateCount = c.NetUpdateCount + 1 := by
  unfold LacksAuthority at h
  unfold MarkDirtyForReplication NetUpdateCount
  cases hO : c.GetOwner with
  | none => simp [hO] at h
  | some Owner => simp [GetOwner, AActor.ForceNetUpdate]

theorem MarkDirty_eq (c : UGameplayTagComponent) :
    c.MarkDirtyForReplication = { c with Owner := c.MarkDirtyForReplication.Owner } := by
  unfold MarkDirtyForReplication
  cases hO : c.GetOwner with
  | none => simp only [GetOwner] at hO; cases c; simp_all
  | some Owner => simp

/-- After an `_Internal` function, marking the owner dirty when it returned
true has the effect of a request that forwards nothing. -/
theorem RequestEffect_of_InternalEffect (c : UGameplayTagComponent)
    (r : Bool × UGameplayTagComponent) (h : c.InternalEffect r) :
    c.RequestEffect (if r.1 then r.2.MarkDirtyForReplication else r.2) [] ∧
    (if r.1 then r.2.MarkDirtyForReplication else r.2).GameplayTagContainer
      = r.2.GameplayTagContainer := by
  obtain ⟨hEq, hCh, hAuth⟩ := h
  have hOwner : r.2.Owner = c.Owner := by rw [hEq]
  have hNotify : r.2.OnGameplayTagsChanged = c.OnGameplayTagsChanged := by rw [hEq]
  have hSent : r.2.SentServerRPCs = c.SentServerRPCs := by rw [hEq]
  have hLack : r.2.LacksAuthority = c.LacksAuthority := by
    simp [LacksAuthority, GetOwner, hOwner]
  have hCount : r.2.NetUpdateCount = c.NetUpdateCount := by
    simp [NetUpdateCount, GetOwner, hOwner]
  cases h1 : r.1
  · have hs : c.GameplayTagContainer.SameTags r.2.GameplayTagContainer = true := by
      rw [h1] at hCh; simpa using hCh.symm
    simp [RequestEffect, DirtyIffChanged, hs, hCount, NotifyCount, hNotify, hSent]
  · have hs : c.GameplayTagContainer.SameTags r.2.GameplayTagContainer = false := by
      rw [h1] at hCh; simpa using hCh.symm
    have hM := MarkDirty_eq r.2
    have hMc : r.2.MarkDirtyForReplication.GameplayTagContainer = r.2.GameplayTagContainer := by
      rw [hM]
    have hMn : r.2.MarkDirtyForReplication.OnGameplayTagsChanged = r.2.OnGameplayTagsChanged := by
      rw [hM]
    have hMs : r.2.MarkDirtyForReplication.SentServerRPCs = r.2.SentServerRPCs := by
      rw [hM]
    have hMu := NetUpdateCount_MarkDirty r.2 (by rw [hLack]; exact hAuth h1)
    simp [RequestEffect, DirtyIffChanged, hMc, hs, hMu, hCount, NotifyCount, hMn, hNotify, hMs, hSent]

/-- Calling a server RPC stub forwards exactly that request and touches
nothing else. -/
theorem RequestEffect_CallServerRPC (c : UGameplayTagComponent) (Request : ServerRPC) :
    c.RequestEffect (c.CallServerRPC Request) [Request] ∧
    c.CallServerRPC Request = { c with SentServerRPCs := c.SentServerRPCs ++ [Request] } := by
  simp [RequestEffect, DirtyIffChanged, CallServerRPC, NetUpdateCount, GetOwner, NotifyCount,
    SameTags_self]

theorem ValidateTags_Loop_eq_all (c : UGameplayTagComponent) (T : List FGameplayTag) :
    c.ValidateTags_Loop T = T.all (fun t => t.IsValid && c.IsTagAllowed t) := by
  induction T with
  | nil => simp [ValidateTags_Loop]
  | cons t Rest ih =>
    unfold ValidateTags_Loop
    by_cases h : (t.IsValid && c.IsTagAllowed t) = true
    · have h1 : t.IsValid = true := by simp at h; exact h.1
      have h2 : c.IsTagAllowed t = true := by simp at h; exact h.2
      simp [h1, h2, ih]
    · have h3 : (t.IsValid && c.IsTagAllowed t) = false := Bool.eq_false_iff.mpr h
      have h4 : (!t.IsValid || !c.IsTagAllowed t) = true := by
        cases hv : t.IsValid <;> cases ha : c.IsTagAllowed t <;> simp_all
      simp [h3, h4]

theorem RequestAddGameplayTag_effect (c : UGameplayTagComponent) (t : FGameplayTag) :
    ∃ Sent, c.RequestEffect (c.RequestAddGameplayTag t) Sent := by
  unfold RequestAddGameplayTag
  split
  · exact ⟨_, (RequestEffect_CallServerRPC c _).1⟩
  · exact ⟨_, (RequestEffect_of_InternalEffect c _ (AddGameplayTag_Internal_effect c t)).1⟩

theorem RequestRemoveGameplayTag_effect (c : UGameplayTagComponent) (t : FGameplayTag) :
    ∃ Sent, c.RequestEffect (c.RequestRemoveGameplayTag t) Sent := by
  unfold RequestRemoveGameplayTag
  split
  · exact ⟨_, (RequestEffect_CallServerRPC c _).1⟩
  · exact ⟨_, (RequestEffect_of_InternalEffect c _ (RemoveGameplayTag_Internal_effect c t)).1⟩

theorem RequestAddGameplayTags_effect (c : UGameplayTagComponent) (T : FGameplayTagContainer) :
    ∃ Sent, c.RequestEffect (c.RequestAddGameplayTags T) Sent := by
  unfold RequestAddGameplayTags
  split
  · exact ⟨_, (RequestEffect_CallServerRPC c _).1⟩
  · exact ⟨_, (RequestEffect_of_InternalEffect c _ (AddGameplayTags_Internal_effect c T)).1⟩

theorem RequestRemoveGameplayTags_effect (c : UGameplayTagComponent) (T : FGameplayTagContainer) :
    ∃ Sent, c.RequestEffect (c.RequestRemoveGameplayTags T) Sent := by
  unfold RequestRemoveGameplayTags
  split
  · exact ⟨_, (RequestEffect_CallServerRPC c _).1⟩
  · exact ⟨_, (RequestEffect_of_InternalEffect c _ (RemoveGameplayTags_Internal_effect c T)).1⟩

theorem ServerAddGameplayTag_Implementation_effect (c : UGameplayTagComponent)
    (t : FGameplayTag) : c.RequestEffect (c.ServerAddGameplayTag_Implementation t) [] :=
  (RequestEffect_of_InternalEffect c _ (AddGameplayTag_Internal_effect c t)).1

theorem ServerRemoveGameplayTag_Implementation_effect (c : UGameplayTagComponent)
    (t : FGameplayTag) : c.RequestEffect (c.ServerRemoveGameplayTag_Implementation t) [] :=
  (RequestEffect_of_InternalEffect c _ (RemoveGameplayTag_Internal_effect c t)).1

theorem ServerAddGameplayTags_Implementation_effect (c : UGameplayTagComponent)
    (T : FGameplayTagContainer) : c.RequestEffect (c.ServerAddGameplayTags_Implementation T) [] :=
  (RequestEffect_of_InternalEffect c _ (AddGameplayTags_Internal_effect c T)).1

theorem ServerRemoveGameplayTags_Implementation_effect (c : UGameplayTagComponent)
    (T : FGameplayTagContainer) :
    c.RequestEffect (c.ServerRemoveGameplayTags_Implementation T) [] :=
  (RequestEffect_of_InternalEffect c _ (RemoveGameplayTags_Internal_effect c T)).1

end UGameplayTagComponent

namespace FGameplayTagContainer

theorem SameTags_eq_false_of_DiffTags (A B : FGameplayTagContainer)
    (h : 1 ≤ (A.DiffTags B).length) : A.SameTags B = false := by
  have hne : A.DiffTags B ≠ [] := by
    intro h0; rw [h0] at h; simp at h
  obtain ⟨x, hx⟩ := List.exists_mem_of_ne_nil _ hne
  unfold DiffTags at hx
  rw [List.mem_dedup, List.mem_append, List.mem_filter, List.mem_filter] at hx
  rcases hx with ⟨hA, hB⟩ | ⟨hB, hA⟩
  · apply SameTags_eq_false_of_differ A B x
    have hA1 : A.HasTag x = true := (HasTag_iff A x).2 hA
    simp at hB
    simp [hA1, hB]
  · apply SameTags_eq_false_of_differ A B x
    have hB1 : B.HasTag x = true := (HasTag_iff B x).2 hB
    simp at hA
    simp [hB1, hA]

end FGameplayTagContainer

/-! ## Calls that change nothing -/

namespace UGameplayTagComponent

open FGameplayTagContainer

theorem AddGameplayTag_Internal_noop (d : UGameplayTagComponent) (t : FGameplayTag)
    (h : d.LacksAuthority = true ∨ d.GameplayTagContainer.HasTag t = true) :
    d.AddGameplayTag_Internal t = (false, d) := by
  unfold AddGameplayTag_Internal
  rcases h with h | h
  · simp [h]
  · simp [h]

theorem RemoveGameplayTag_Internal_noop (d : UGameplayTagComponent) (t : FGameplayTag)
    (h : d.LacksAuthority = true ∨ d.GameplayTagContainer.HasTag t = false) :
    d.RemoveGameplayTag_Internal t = (false, d) := by
  unfold RemoveGameplayTag_Internal
  rcases h with h | h
  · simp [h]
  · simp [h]

theorem AddGameplayTags_Internal_noop (d : UGameplayTagComponent) (T : FGameplayTagContainer)
    (h : d.LacksAuthority = true ∨ ∀ t ∈ T.GameplayTags, d.GameplayTagContainer.HasTag t = true) :
    d.AddGameplayTags_Internal T = (false, d) := by
  unfold AddGameplayTags_Internal
  rcases h with h | h
  · simp [h]
  · by_cases hA : d.LacksAuthority = true
    · simp [hA]
    · simp only [hA, Bool.false_eq_true, if_false]
      rw [AddGameplayTags_Loop_unchanged _ _ _ h]

theorem RemoveGameplayTags_Internal_noop (d : UGameplayTagComponent) (T : FGameplayTagContainer)
    (h : d.LacksAuthority = true ∨ ∀ t ∈ T.GameplayTags, d.GameplayTagContainer.HasTag t = false) :
    d.RemoveGameplayTags_Internal T = (false, d) := by
  unfold RemoveGameplayTags_Internal
  rcases h with h | h
  · simp [h]
  · by_cases hA : d.LacksAuthority = true
    · simp [hA]
    · simp only [hA, Bool.false_eq_true, if_false]
      rw [RemoveGameplayTags_Loop_unchanged _ _ _ h]

theorem AddGameplayTag_Internal_post (c : UGameplayTagComponent) (t : FGameplayTag) :
    (c.AddGameplayTag_Internal t).2.LacksAuthority = true ∨
    (c.AddGameplayTag_Internal t).2.GameplayTagContainer.HasTag t = true := by
  unfold AddGameplayTag_Internal
  by_cases hA : c.LacksAuthority = true
  · simp [hA]
  · by_cases hT : c.GameplayTagContainer.HasTag t = true
    · simp [hA, hT]
    · simp [hA, hT, HasTag_AddTag]

theorem RemoveGameplayTag_Internal_post (c : UGameplayTagComponent) (t : FGameplayTag) :
    (c.RemoveGameplayTag_Internal t).2.LacksAuthority = true ∨
    (c.RemoveGameplayTag_Internal t).2.GameplayTagContainer.HasTag t = false := by
  unfold RemoveGameplayTag_Internal
  by_cases hA : c.LacksAuthority = true
  · simp [hA]
  · by_cases hT : c.GameplayTagContainer.HasTag t = true
    · simp [hA, hT, HasTag_RemoveTag]
    · simp [hA, hT]

theorem AddGameplayTags_Internal_post (c : UGameplayTagComponent) (T : FGameplayTagContainer) :
    (c.AddGameplayTags_Internal T).2.LacksAuthority = true ∨
    ∀ t ∈ T.GameplayTags, (c.AddGameplayTags_Internal T).2.GameplayTagContainer.HasTag t = true := by
  unfold AddGameplayTags_Internal
  by_cases hA : c.LacksAuthority = true
  · simp [hA]
  · right
    intro t ht
    simp only [hA, Bool.false_eq_true, if_false]
    rw [AddGameplayTags_Loop_HasTag]
    simp [ht]

theorem RemoveGameplayTags_Internal_post (c : UGameplayTagComponent)
    (T : FGameplayTagContainer) :
    (c.RemoveGameplayTags_Internal T).2.LacksAuthority = true ∨
    ∀ t ∈ T.GameplayTags,
      (c.RemoveGameplayTags_Internal T).2.GameplayTagContainer.HasTag t = false := by
  unfold RemoveGameplayTags_Internal
  by_cases hA : c.LacksAuthority = true
  · simp [hA]
  · right
    intro t ht
    simp only [hA, Bool.false_eq_true, if_false]
    rw [RemoveGameplayTags_Loop_HasTag]
    simp [ht]

theorem LacksAuthority_MarkDirty (c : UGameplayTagComponent) :
    c.MarkDirtyForReplication.LacksAuthority = c.LacksAuthority := by
  unfold MarkDirtyForReplication LacksAuthority GetOwner
  cases hO : c.Owner with
  | none => simp [hO]
  | some Owner => simp [AActor.ForceNetUpdate, AActor.HasAuthority]

theorem GameplayTagContainer_MarkDirty (c : UGameplayTagComponent) :
    c.MarkDirtyForReplication.GameplayTagContainer = c.GameplayTagContainer := by
  rw [MarkDirty_eq]

/-- Marking the owner dirty or not after an `_Internal` function changes
neither the authority nor the tag set that function left. -/
theorem finish_keeps (r : Bool × UGameplayTagComponent) :
    (if r.1 then r.2.MarkDirtyForReplication else r.2).LacksAuthority = r.2.LacksAuthority ∧
    (if r.1 then r.2.MarkDirtyForReplication else r.2).GameplayTagContainer
      = r.2.GameplayTagContainer := by
  cases h : r.1
  · simp
  · simp [LacksAuthority_MarkDirty, GameplayTagContainer_MarkDirty]

end UGameplayTagComponent

/-! ## Validity of the stored tags -/

namespace FGameplayTagContainer

end FGameplayTagContainer

namespace UGameplayTagComponent

open FGameplayTagContainer

theorem AddGameplayTags_Loop_Over_AddTag (T : List FGameplayTag) :
    ∀ (C : FGameplayTagContainer) (b : Bool),
      AddGameplayTags_Loop_Over FGameplayTagContainer.AddTag T C b
        = AddGameplayTags_Loop T C b := by
  induction T with
  | nil => intro C b; rfl
  | cons t Rest ih =>
    intro C b
    unfold AddGameplayTags_Loop_Over AddGameplayTags_Loop
    split
    · exact ih _ _
    · exact ih _ _

theorem Step_Over_AddTag (c : UGameplayTagComponent) (Call : PublicCall) :
    c.Step_Over FGameplayTagContainer.AddTag Call = c.Step Call := by
  have hL : ∀ T, c.AddGameplayTags_Internal_Over FGameplayTagContainer.AddTag T
      = c.AddGameplayTags_Internal T := by
    intro T
    simp only [AddGameplayTags_Internal_Over, AddGameplayTags_Internal,
      AddGameplayTags_Loop_Over_AddTag]
  have hS : ∀ t, c.AddGameplayTag_Internal_Over FGameplayTagContainer.AddTag t
      = c.AddGameplayTag_Internal t := fun _ => rfl
  cases Call with
  | RequestAdd t => simp only [Step_Over, Step, RequestAddGameplayTag_Over, RequestAddGameplayTag, hS]
  | RequestRemove t => rfl
  | RequestAddBatch T =>
    simp only [Step_Over, Step, RequestAddGameplayTags_Over, RequestAddGameplayTags, hL]
  | RequestRemoveBatch T => rfl
  | Receive R =>
    cases R with
    | AddGameplayTag t =>
      simp only [Step_Over, Step, ReceiveServerRPC_Over, ReceiveServerRPC,
        ServerAddGameplayTag_Implementation_Over, ServerAddGameplayTag_Implementation, hS]
    | RemoveGameplayTag t => rfl
    | AddGameplayTags T =>
      simp only [Step_Over, Step, ReceiveServerRPC_Over, ReceiveServerRPC,
        ServerAddGameplayTags_Implementation_Over, ServerAddGameplayTags_Implementation, hL]
    | RemoveGameplayTags T => rfl

/-- At `FGameplayTagContainer.AddTag`, running the component over an insertion
is running the component. -/
theorem Run_Over_AddTag (Calls : List PublicCall) :
    ∀ (c : UGameplayTagComponent),
      c.Run_Over FGameplayTagContainer.AddTag Calls = c.Run Calls := by
  induction Calls with
  | nil => intro c; rfl
  | cons Call Rest ih =>
    intro c
    unfold Run_Over Run
    rw [Step_Over_AddTag, ih]

end UGameplayTagComponent

/-! ## The batch loops against the single operations -/

namespace UGameplayTagComponent

open FGameplayTagContainer

theorem AddGameplayTags_Loop_flag (T : List FGameplayTag) :
    ∀ (C : FGameplayTagContainer) (b : Bool),
      AddGameplayTags_Loop T C b
        = (b || (AddGameplayTags_Loop T C false).1, (AddGameplayTags_Loop T C false).2) := by
  induction T with
  | nil => intro C b; simp [AddGameplayTags_Loop]
  | cons t Rest ih =>
    intro C b
    by_cases h : C.HasTag t = true
    · simp only [AddGameplayTags_Loop, h, Bool.not_true, Bool.false_eq_true, if_false]
      exact ih C b
    · simp only [AddGameplayTags_Loop, h, Bool.not_false, if_true]
      rw [ih (C.AddTag t) true]
      simp

theorem RemoveGameplayTags_Loop_flag (T : List FGameplayTag) :
    ∀ (C : FGameplayTagContainer) (b : Bool),
      RemoveGameplayTags_Loop T C b
        = (b || (RemoveGameplayTags_Loop T C false).1,
            (RemoveGameplayTags_Loop T C false).2) := by
  induction T with
  | nil => intro C b; simp [RemoveGameplayTags_Loop]
  | cons t Rest ih =>
    intro C b
    by_cases h : C.HasTag t = true
    · simp only [RemoveGameplayTags_Loop, h, if_true]
      rw [ih (C.RemoveTag t) true]
      simp
    · simp only [RemoveGameplayTags_Loop, h, Bool.false_eq_true, if_false]
      exact ih C b

theorem LacksAuthority_with_container (c : UGameplayTagComponent) (C : FGameplayTagContainer) :
    ({ c with GameplayTagContainer := C } : UGameplayTagComponent).LacksAuthority
      = c.LacksAuthority := by
  simp [LacksAuthority, GetOwner]

theorem AddGameplayTag_Each_without_authority (T : List FGameplayTag)
    (c : UGameplayTagComponent) (h : c.LacksAuthority = true) :
    c.AddGameplayTag_Each T = (false, c) := by
  induction T with
  | nil => simp [AddGameplayTag_Each]
  | cons t Rest ih =>
    simp [AddGameplayTag_Each, AddGameplayTag_Internal_noop c t (Or.inl h), ih]

theorem RemoveGameplayTag_Each_without_authority (T : List FGameplayTag)
    (c : UGameplayTagComponent) (h : c.LacksAuthority = true) :
    c.RemoveGameplayTag_Each T = (false, c) := by
  induction T with
  | nil => simp [RemoveGameplayTag_Each]
  | cons t Rest ih =>
    simp [RemoveGameplayTag_Each, RemoveGameplayTag_Internal_noop c t (Or.inl h), ih]

theorem AddGameplayTag_Each_with_authority (T : List FGameplayTag) :
    ∀ (c : UGameplayTagComponent), c.LacksAuthority = false →
      c.AddGameplayTag_Each T
        = ((AddGameplayTags_Loop T c.GameplayTagContainer false).1,
            { c with
              GameplayTagContainer := (AddGameplayTags_Loop T c.GameplayTagContainer false).2 }) := by
  induction T with
  | nil => intro c _; simp [AddGameplayTag_Each, AddGameplayTags_Loop]
  | cons t Rest ih =>
    intro c h
    by_cases hT : c.GameplayTagContainer.HasTag t = true
    · simp only [AddGameplayTag_Each, AddGameplayTag_Internal_noop c t (Or.inr hT),
        AddGameplayTags_Loop, hT, Bool.not_true, Bool.false_eq_true, if_false, Bool.false_or]
      exact ih c h
    · have hr : c.AddGameplayTag_Internal t
          = (true, { c with GameplayTagContainer := c.GameplayTagContainer.AddTag t }) := by
        simp [AddGameplayTag_Internal, h, hT]
      have h2 := ih { c with GameplayTagContainer := c.GameplayTagContainer.AddTag t }
        (by rw [LacksAuthority_with_container]; exact h)
      simp only [AddGameplayTag_Each, hr, h2, AddGameplayTags_Loop, hT, Bool.not_false, if_true,
        Bool.true_or]
      rw [AddGameplayTags_Loop_flag Rest _ true]
      simp

theorem RemoveGameplayTag_Each_with_authority (T : List FGameplayTag) :
    ∀ (c : UGameplayTagComponent), c.LacksAuthority = false →
      c.RemoveGameplayTag_Each T
        = ((RemoveGameplayTags_Loop T c.GameplayTagContainer false).1,
            { c with
              GameplayTagContainer :=
                (RemoveGameplayTags_Loop T c.GameplayTagContainer false).2 }) := by
  induction T with
  | nil => intro c _; simp [RemoveGameplayTag_Each, RemoveGameplayTags_Loop]
  | cons t Rest ih =>
    intro c h
    by_cases hT : c.GameplayTagContainer.HasTag t = true
    · have hr : c.RemoveGameplayTag_Internal t
          = (true, { c with GameplayTagContainer := c.GameplayTagContainer.RemoveTag t }) := by
        simp [RemoveGameplayTag_Internal, h, hT]
      have h2 := ih { c with GameplayTagContainer := c.GameplayTagContainer.RemoveTag t }
        (by rw [LacksAuthority_with_container]; exact h)
      simp only [RemoveGameplayTag_Each, hr, h2, RemoveGameplayTags_Loop, hT, if_true,
        Bool.true_or]
      rw [RemoveGameplayTags_Loop_flag Rest _ true]
      simp
    · have hF : c.GameplayTagContainer.HasTag t = false := Bool.eq_false_iff.mpr hT
      simp only [RemoveGameplayTag_Each, RemoveGameplayTag_Internal_noop c t (Or.inr hF),
        RemoveGameplayTags_Loop, hT, Bool.false_eq_true, if_false, Bool.false_or]
      exact ih c h

/-- The remove loop leaves exactly the stored tags that are not in the batch,
in their order. -/
theorem RemoveGameplayTags_Loop_eq_filter (T : List FGameplayTag) :
    ∀ (C : FGameplayTagContainer) (b : Bool),
      (RemoveGameplayTags_Loop T C b).2
        = { GameplayTags := C.GameplayTags.filter (fun x => decide (x ∉ T)) } := by
  induction T with
  | nil => intro C b; simp [RemoveGameplayTags_Loop]
  | cons t Rest ih =>
    intro C b
    by_cases h : C.HasTag t = true
    · simp only [RemoveGameplayTags_Loop, h, if_true, ih, RemoveTag, List.filter_filter]
      congr 1
      apply List.filter_congr
      intro x _
      simp only [List.mem_cons, not_or, Bool.decide_and, decide_not]
      exact Bool.and_comm _ _
    · simp only [RemoveGameplayTags_Loop, h, Bool.false_eq_true, if_false, ih]
      congr 1
      apply List.filter_congr
      intro x hx
      have hne : x ≠ t := by
        intro e; subst e; exact h ((HasTag_iff _ _).2 hx)
      simp [List.mem_cons, hne]

/-- The add loop appends tags of the batch to the stored tags. -/
theorem AddGameplayTags_Loop_eq_append (T : List FGameplayTag) :
    ∀ (C : FGameplayTagContainer) (b : Bool),
      ∃ Extra, (AddGameplayTags_Loop T C b).2.GameplayTags = C.GameplayTags ++ Extra ∧
        ∀ x ∈ Extra, x ∈ T := by
  induction T with
  | nil => intro C b; exact ⟨[], by simp [AddGameplayTags_Loop], by simp⟩
  | cons t Rest ih =>
    intro C b
    by_cases h : C.HasTag t = true
    · obtain ⟨E, hE, hM⟩ := ih C b
      refine ⟨E, ?_, fun x hx => List.mem_cons_of_mem _ (hM x hx)⟩
      simp only [AddGameplayTags_Loop, h, Bool.not_true, Bool.false_eq_true, if_false]
      exact hE
    · obtain ⟨E, hE, hM⟩ := ih (C.AddTag t) true
      refine ⟨t :: E, ?_, ?_⟩
      · simp only [AddGameplayTags_Loop, h, Bool.not_false, if_true]
        rw [hE]
        simp [AddTag, h]
      · intro x hx
        rcases List.mem_cons.1 hx with e | hx
        · rw [e]; exact List.mem_cons_self _ _
        · exact List.mem_cons_of_mem _ (hM x hx)

end UGameplayTagComponent

/-! ## Properties of the component -/

section Properties

open UGameplayTagComponent FGameplayTagContainer

/-- C1 (as stated, refuted): on an Authority holding the empty tag set, the
batch made of the tag "A" and the empty tag, which `IsTagAllowed` disallows,
is not refused by `RequestAddGameplayTags`: the request reports a change, the
tag "A" is added, the tag set differs afterwards and the owner is marked
dirty. -/
theorem C1_authority_batch_is_not_validated :
    (mkAuthority []).IsAuthority ∧
    (mkTags ["A", ""]).HasTag (mkTag "") = true ∧
    (mkAuthority []).IsTagAllowed (mkTag "") = false ∧
    (mkAuthority []).ServerAddGameplayTags_Validate (mkTags ["A", ""]) = false ∧
    ((mkAuthority []).AddGameplayTags_Internal (mkTags ["A", ""])).1 = true ∧
    (mkAuthority []).GameplayTagContainer.HasTag (mkTag "A") = false ∧
    ((mkAuthority []).RequestAddGameplayTags (mkTags ["A", ""])).GameplayTagContainer.HasTag
      (mkTag "A") = true ∧
    (mkAuthority []).GameplayTagContainer.SameTags
      ((mkAuthority []).RequestAddGameplayTags (mkTags ["A", ""])).GameplayTagContainer = false ∧
    (mkAuthority []).NetUpdateCount = 0 ∧
    ((mkAuthority []).RequestAddGameplayTags (mkTags ["A", ""])).NetUpdateCount = 1 := by
  decide

/-- C1 (amended): batch atomicity under validation holds for a batch forwarded
to the authority.  For every component and every batch holding at least one
tag that `IsTagAllowed` disallows, `ServerAddGameplayTags_Validate` returns
false, and the RPC guarded by it leaves the whole component as it was: zero
tags are added, the tag set is unchanged and the owner is not marked dirty. -/
theorem C1_forwarded_batch_add_is_atomic (c : UGameplayTagComponent)
    (NewTags : FGameplayTagContainer)
    (h : ∃ Tag, NewTags.HasTag Tag = true ∧ c.IsTagAllowed Tag = false) :
    c.ServerAddGameplayTags_Validate NewTags = false ∧
    c.ReceiveServerRPC (ServerRPC.AddGameplayTags NewTags) = c := by
  obtain ⟨Tag, hIn, hNo⟩ := h
  have hV : c.ServerAddGameplayTags_Validate NewTags = false := by
    unfold ServerAddGameplayTags_Validate
    rw [ValidateTags_Loop_eq_all]
    apply Bool.eq_false_iff.mpr
    intro hall
    rw [List.all_eq_true] at hall
    have := hall Tag ((HasTag_iff _ _).1 hIn)
    simp [hNo] at this
  exact ⟨hV, by simp [ReceiveServerRPC, hV]⟩

/-- Witness of C1 (amended): an authority holding "B" receives the forwarded
batch made of "A" and the empty tag. -/
theorem C1_forwarded_batch_add_is_atomic_witness :
    (mkAuthority ["B"]).ServerAddGameplayTags_Validate (mkTags ["A", ""]) = false ∧
    (mkAuthority ["B"]).ReceiveServerRPC (ServerRPC.AddGameplayTags (mkTags ["A", ""]))
      = mkAuthority ["B"] :=
  C1_forwarded_batch_add_is_atomic (mkAuthority ["B"]) (mkTags ["A", ""])
    ⟨mkTag "", by decide, by decide⟩

/-- C2: authority isolation.  On a component without authority (no owner, or
an owner lacking authority) each of the four `_Internal` functions returns
false and leaves the component, its tag set included, exactly as it was. -/
theorem C2_internal_without_authority_is_noop (c : UGameplayTagComponent)
    (h : c.GetOwner = none ∨ ∃ Owner, c.GetOwner = some Owner ∧ Owner.HasAuthority = false)
    (Tag : FGameplayTag) (Tags : FGameplayTagContainer) :
    c.AddGameplayTag_Internal Tag = (false, c) ∧
    c.RemoveGameplayTag_Internal Tag = (false, c) ∧
    c.AddGameplayTags_Internal Tags = (false, c) ∧
    c.RemoveGameplayTags_Internal Tags = (false, c) := by
  have hL : c.LacksAuthority = true := by
    unfold LacksAuthority
    rcases h with h | ⟨Owner, hO, hA⟩
    · simp [h]
    · simp [hO, hA]
  simp [AddGameplayTag_Internal, RemoveGameplayTag_Internal, AddGameplayTags_Internal,
    RemoveGameplayTags_Internal, hL]

/-- Witness of C2: an observer mirroring "A", asked to add or remove "A" and the
batch of "A" and "B". -/
theorem C2_internal_without_authority_is_noop_witness :
    (mkObserver ["A"]).AddGameplayTag_Internal (mkTag "A") = (false, mkObserver ["A"]) ∧
    (mkObserver ["A"]).RemoveGameplayTag_Internal (mkTag "A") = (false, mkObserver ["A"]) ∧
    (mkObserver ["A"]).AddGameplayTags_Internal (mkTags ["A", "B"]) = (false, mkObserver ["A"]) ∧
    (mkObserver ["A"]).RemoveGameplayTags_Internal (mkTags ["A", "B"])
      = (false, mkObserver ["A"]) :=
  C2_internal_without_authority_is_noop (mkObserver ["A"])
    (Or.inr ⟨{ bHasAuthority := false, NetUpdates := 0 }, rfl, rfl⟩) (mkTag "A")
    (mkTags ["A", "B"])

/-- C3: observer requests never touch the local mirror.  With an owner role
below the authority role, each of the four `Request` functions appends exactly
one request, the one it was given, to the requests forwarded to the authority
and changes nothing else: the tag set, the dirty marking of the owner and the
listeners are left as they were. -/
theorem C3_observer_request_only_forwards (c : UGameplayTagComponent) (h : c.IsObserver)
    (Tag : FGameplayTag) (Tags : FGameplayTagContainer) :
    c.RequestAddGameplayTag Tag
      = { c with SentServerRPCs := c.SentServerRPCs ++ [ServerRPC.AddGameplayTag Tag] } ∧
    c.RequestRemoveGameplayTag Tag
      = { c with SentServerRPCs := c.SentServerRPCs ++ [ServerRPC.RemoveGameplayTag Tag] } ∧
    c.RequestAddGameplayTags Tags
      = { c with SentServerRPCs := c.SentServerRPCs ++ [ServerRPC.AddGameplayTags Tags] } ∧
    c.RequestRemoveGameplayTags Tags
      = { c with SentServerRPCs := c.SentServerRPCs ++ [ServerRPC.RemoveGameplayTags Tags] } := by
  unfold IsObserver at h
  simp [RequestAddGameplayTag, RequestRemoveGameplayTag, RequestAddGameplayTags,
    RequestRemoveGameplayTags, h, ServerAddGameplayTag, ServerRemoveGameplayTag,
    ServerAddGameplayTags, ServerRemoveGameplayTags, CallServerRPC]

/-- Witness of C3: an observer mirroring "A" requests changes of "B" and of the
batch of "A" and "B". -/
theorem C3_observer_request_only_forwards_witness :
    (mkObserver ["A"]).RequestAddGameplayTag (mkTag "B")
      = { mkObserver ["A"] with SentServerRPCs := [ServerRPC.AddGameplayTag (mkTag "B")] } ∧
    (mkObserver ["A"]).RequestRemoveGameplayTag (mkTag "B")
      = { mkObserver ["A"] with SentServerRPCs := [ServerRPC.RemoveGameplayTag (mkTag "B")] } ∧
    (mkObserver ["A"]).RequestAddGameplayTags (mkTags ["A", "B"])
      = { mkObserver ["A"] with
          SentServerRPCs := [ServerRPC.AddGameplayTags (mkTags ["A", "B"])] } ∧
    (mkObserver ["A"]).RequestRemoveGameplayTags (mkTags ["A", "B"])
      = { mkObserver ["A"] with
          SentServerRPCs := [ServerRPC.RemoveGameplayTags (mkTags ["A", "B"])] } :=
  C3_observer_request_only_forwards (mkObserver ["A"]) (by decide) (mkTag "B")
    (mkTags ["A", "B"])

/-- C4: authority routing.  With the authority role, each of the four
`Request` functions leaves the tag set that the corresponding `_Internal`
function produces on the component, and forwards nothing: the list of server
RPC calls is as it was. -/
theorem C4_authority_request_applies_locally (c : UGameplayTagComponent)
    (h : c.GetOwnerRole = ENetRole.ROLE_Authority)
    (Tag : FGameplayTag) (Tags : FGameplayTagContainer) :
    ((c.RequestAddGameplayTag Tag).GameplayTagContainer
        = (c.AddGameplayTag_Internal Tag).2.GameplayTagContainer ∧
      (c.RequestAddGameplayTag Tag).SentServerRPCs = c.SentServerRPCs) ∧
    ((c.RequestRemoveGameplayTag Tag).GameplayTagContainer
        = (c.RemoveGameplayTag_Internal Tag).2.GameplayTagContainer ∧
      (c.RequestRemoveGameplayTag Tag).SentServerRPCs = c.SentServerRPCs) ∧
    ((c.RequestAddGameplayTags Tags).GameplayTagContainer
        = (c.AddGameplayTags_Internal Tags).2.GameplayTagContainer ∧
      (c.RequestAddGameplayTags Tags).SentServerRPCs = c.SentServerRPCs) ∧
    ((c.RequestRemoveGameplayTags Tags).GameplayTagContainer
        = (c.RemoveGameplayTags_Internal Tags).2.GameplayTagContainer ∧
      (c.RequestRemoveGameplayTags Tags).SentServerRPCs = c.SentServerRPCs) := by
  have hR : ¬ (c.GetOwnerRole.toNat < ENetRole.ROLE_Authority.toNat) := by
    rw [h]; exact Nat.lt_irrefl _
  have e1 := RequestEffect_of_InternalEffect c _ (AddGameplayTag_Internal_effect c Tag)
  have e2 := RequestEffect_of_InternalEffect c _ (RemoveGameplayTag_Internal_effect c Tag)
  have e3 := RequestEffect_of_InternalEffect c _ (AddGameplayTags_Internal_effect c Tags)
  have e4 := RequestEffect_of_InternalEffect c _ (RemoveGameplayTags_Internal_effect c Tags)
  refine ⟨⟨?_, ?_⟩, ⟨?_, ?_⟩, ⟨?_, ?_⟩, ⟨?_, ?_⟩⟩
  · simp only [RequestAddGameplayTag, hR, if_false]; exact e1.2
  · simp only [RequestAddGameplayTag, hR, if_false]; simpa using e1.1.2.2
  · simp only [RequestRemoveGameplayTag, hR, if_false]; exact e2.2
  · simp only [RequestRemoveGameplayTag, hR, if_false]; simpa using e2.1.2.2
  · simp only [RequestAddGameplayTags, hR, if_false]; exact e3.2
  · simp only [RequestAddGameplayTags, hR, if_false]; simpa using e3.1.2.2
  · simp only [RequestRemoveGameplayTags, hR, if_false]; exact e4.2
  · simp only [RequestRemoveGameplayTags, hR, if_false]; simpa using e4.1.2.2

/-- Witness of C4: an authority holding "A" requests changes of "B" and of the
batch of "A" and "B". -/
theorem C4_authority_request_applies_locally_witness :
    (((mkAuthority ["A"]).RequestAddGameplayTag (mkTag "B")).GameplayTagContainer
        = ((mkAuthority ["A"]).AddGameplayTag_Internal (mkTag "B")).2.GameplayTagContainer ∧
      ((mkAuthority ["A"]).RequestAddGameplayTag (mkTag "B")).SentServerRPCs
        = (mkAuthority ["A"]).SentServerRPCs) ∧
    (((mkAuthority ["A"]).RequestRemoveGameplayTag (mkTag "B")).GameplayTagContainer
        = ((mkAuthority ["A"]).RemoveGameplayTag_Internal (mkTag "B")).2.GameplayTagContainer ∧
      ((mkAuthority ["A"]).RequestRemoveGameplayTag (mkTag "B")).SentServerRPCs
        = (mkAuthority ["A"]).SentServerRPCs) ∧
    (((mkAuthority ["A"]).RequestAddGameplayTags (mkTags ["A", "B"])).GameplayTagContainer
        = ((mkAuthority ["A"]).AddGameplayTags_Internal
            (mkTags ["A", "B"])).2.GameplayTagContainer ∧
      ((mkAuthority ["A"]).RequestAddGameplayTags (mkTags ["A", "B"])).SentServerRPCs
        = (mkAuthority ["A"]).SentServerRPCs) ∧
    (((mkAuthority ["A"]).RequestRemoveGameplayTags (mkTags ["A", "B"])).GameplayTagContainer
        = ((mkAuthority ["A"]).RemoveGameplayTags_Internal
            (mkTags ["A", "B"])).2.GameplayTagContainer ∧
      ((mkAuthority ["A"]).RequestRemoveGameplayTags (mkTags ["A", "B"])).SentServerRPCs
        = (mkAuthority ["A"]).SentServerRPCs) :=
  C4_authority_request_applies_locally (mkAuthority ["A"]) rfl (mkTag "B") (mkTags ["A", "B"])

/-- C5: dirty marking happens exactly when the state changed.  For each of the
four `Request` functions and each of the four `Server..._Implementation`
handlers, in every state and so on the Authority, the owner receives exactly
one `ForceNetUpdate()` from `MarkDirtyForReplication` if the tag set after the
call differs from the tag set before it, and none if it does not. -/
theorem C5_dirty_iff_changed (c : UGameplayTagComponent) (Tag : FGameplayTag)
    (Tags : FGameplayTagContainer) :
    c.DirtyIffChanged (c.RequestAddGameplayTag Tag) ∧
    c.DirtyIffChanged (c.RequestRemoveGameplayTag Tag) ∧
    c.DirtyIffChanged (c.RequestAddGameplayTags Tags) ∧
    c.DirtyIffChanged (c.RequestRemoveGameplayTags Tags) ∧
    c.DirtyIffChanged (c.ServerAddGameplayTag_Implementation Tag) ∧
    c.DirtyIffChanged (c.ServerRemoveGameplayTag_Implementation Tag) ∧
    c.DirtyIffChanged (c.ServerAddGameplayTags_Implementation Tags) ∧
    c.DirtyIffChanged (c.ServerRemoveGameplayTags_Implementation Tags) := by
  obtain ⟨_, h1⟩ := RequestAddGameplayTag_effect c Tag
  obtain ⟨_, h2⟩ := RequestRemoveGameplayTag_effect c Tag
  obtain ⟨_, h3⟩ := RequestAddGameplayTags_effect c Tags
  obtain ⟨_, h4⟩ := RequestRemoveGameplayTags_effect c Tags
  exact ⟨h1.1, h2.1, h3.1, h4.1,
    (ServerAddGameplayTag_Implementation_effect c Tag).1,
    (ServerRemoveGameplayTag_Implementation_effect c Tag).1,
    (ServerAddGameplayTags_Implementation_effect c Tags).1,
    (ServerRemoveGameplayTags_Implementation_effect c Tags).1⟩

/-- C6 (as stated, refuted): an Authority holding the empty tag set requests
the tag "A"; the request is applied locally and changes the tag set, yet the
`OnGameplayTagsChanged` listeners are not notified. -/
theorem C6_authority_change_is_not_broadcast :
    (mkAuthority []).IsAuthority ∧
    ((mkAuthority []).RequestAddGameplayTag (mkTag "A")).GameplayTagContainer.HasTag
      (mkTag "A") = true ∧
    (mkAuthority []).GameplayTagContainer.SameTags
      ((mkAuthority []).RequestAddGameplayTag (mkTag "A")).GameplayTagContainer = false ∧
    (mkAuthority []).NotifyCount = 0 ∧
    ((mkAuthority []).RequestAddGameplayTag (mkTag "A")).NotifyCount = 0 := by
  decide

/-- C6 (amended): the change listeners are notified through replication only.
`OnRep_GameplayTags`, called for an inbound snapshot on an Observer, notifies
the `OnGameplayTagsChanged` listeners once; none of the four `Request`
functions and none of the four `Server..._Implementation` handlers notifies
them, whether or not it changes the tag set. -/
theorem C6_listeners_notified_by_replication_only (c : UGameplayTagComponent)
    (Tag : FGameplayTag) (Tags : FGameplayTagContainer) :
    c.OnRep_GameplayTags.NotifyCount = c.NotifyCount + 1 ∧
    (c.RequestAddGameplayTag Tag).NotifyCount = c.NotifyCount ∧
    (c.RequestRemoveGameplayTag Tag).NotifyCount = c.NotifyCount ∧
    (c.RequestAddGameplayTags Tags).NotifyCount = c.NotifyCount ∧
    (c.RequestRemoveGameplayTags Tags).NotifyCount = c.NotifyCount ∧
    (c.ServerAddGameplayTag_Implementation Tag).NotifyCount = c.NotifyCount ∧
    (c.ServerRemoveGameplayTag_Implementation Tag).NotifyCount = c.NotifyCount ∧
    (c.ServerAddGameplayTags_Implementation Tags).NotifyCount = c.NotifyCount ∧
    (c.ServerRemoveGameplayTags_Implementation Tags).NotifyCount = c.NotifyCount := by
  obtain ⟨_, h1⟩ := RequestAddGameplayTag_effect c Tag
  obtain ⟨_, h2⟩ := RequestRemoveGameplayTag_effect c Tag
  obtain ⟨_, h3⟩ := RequestAddGameplayTags_effect c Tags
  obtain ⟨_, h4⟩ := RequestRemoveGameplayTags_effect c Tags
  exact ⟨rfl, h1.2.1, h2.2.1, h3.2.1, h4.2.1,
    (ServerAddGameplayTag_Implementation_effect c Tag).2.1,
    (ServerRemoveGameplayTag_Implementation_effect c Tag).2.1,
    (ServerAddGameplayTags_Implementation_effect c Tags).2.1,
    (ServerRemoveGameplayTags_Implementation_effect c Tags).2.1⟩

/-- C7: snapshot idempotence.  Applying a snapshot notifies the listeners once
if it differs from the prior mirror (set equality) and not at all otherwise,
and leaves the snapshot as the mirror; applying the same snapshot a second
time in a row notifies nobody. -/
theorem C7_snapshot_idempotence (c : UGameplayTagComponent) (S : FGameplayTagContainer) :
    (c.ReceiveSnapshot S).NotifyCount
      = c.NotifyCount + (if c.GameplayTagContainer.SameTags S then 0 else 1) ∧
    (c.ReceiveSnapshot S).GameplayTagContainer = S ∧
    ((c.ReceiveSnapshot S).ReceiveSnapshot S).NotifyCount = (c.ReceiveSnapshot S).NotifyCount := by
  have hS : (c.ReceiveSnapshot S).GameplayTagContainer = S := by
    unfold ReceiveSnapshot
    by_cases h : c.GameplayTagContainer.SameTags S = true
    · simp [h]
    · simp [h, OnRep_GameplayTags]
  refine ⟨?_, hS, ?_⟩
  · unfold ReceiveSnapshot
    by_cases h : c.GameplayTagContainer.SameTags S = true
    · simp [h, NotifyCount]
    · simp [h, NotifyCount, OnRep_GameplayTags, FOnGameplayTagsChanged.Broadcast]
  · have h2 : (c.ReceiveSnapshot S).GameplayTagContainer.SameTags S = true := by
      rw [hS]; exact SameTags_self S
    generalize c.ReceiveSnapshot S = d at h2
    unfold ReceiveSnapshot
    simp [h2, NotifyCount]

/-- C8: notification exactly once per snapshot.  `OnRep_GameplayTags`
broadcasts exactly once.  An inbound snapshot that differs from the prior
mirror in at least one tag, in however many, notifies the listeners exactly
once, and a second snapshot that differs from the first brings the
notifications to exactly two. -/
theorem C8_one_notification_per_snapshot (c : UGameplayTagComponent)
    (S1 S2 : FGameplayTagContainer)
    (h1 : 1 ≤ (c.GameplayTagContainer.DiffTags S1).length)
    (h2 : 1 ≤ (S1.DiffTags S2).length) :
    c.OnRep_GameplayTags.NotifyCount = c.NotifyCount + 1 ∧
    c.OnRep_GameplayTags.GameplayTagContainer = c.GameplayTagContainer ∧
    (c.ReceiveSnapshot S1).NotifyCount = c.NotifyCount + 1 ∧
    ((c.ReceiveSnapshot S1).ReceiveSnapshot S2).NotifyCount = c.NotifyCount + 2 ∧
    ((c.ReceiveSnapshot S1).ReceiveSnapshot S2).GameplayTagContainer = S2 := by
  have d1 := SameTags_eq_false_of_DiffTags _ _ h1
  have d2 := SameTags_eq_false_of_DiffTags _ _ h2
  have hS : (c.ReceiveSnapshot S1).GameplayTagContainer = S1 := by
    simp [ReceiveSnapshot, d1, OnRep_GameplayTags]
  have hN : (c.ReceiveSnapshot S1).NotifyCount = c.NotifyCount + 1 := by
    simp [ReceiveSnapshot, d1, OnRep_GameplayTags, NotifyCount, FOnGameplayTagsChanged.Broadcast]
  refine ⟨rfl, rfl, hN, ?_, ?_⟩
  · rw [← hS] at d2
    generalize c.ReceiveSnapshot S1 = d at d2 hN
    simp only [ReceiveSnapshot, d2, Bool.false_eq_true, if_false]
    simp only [NotifyCount, OnRep_GameplayTags, FOnGameplayTagsChanged.Broadcast] at hN ⊢
    omega
  · rw [← hS] at d2
    generalize c.ReceiveSnapshot S1 = d at d2
    simp [ReceiveSnapshot, d2, OnRep_GameplayTags]

/-- Witness of C8: an observer with an empty mirror receives the snapshot of
"X" and then the snapshot of "X" and "Y". -/
theorem C8_one_notification_per_snapshot_witness :
    (mkObserver []).OnRep_GameplayTags.NotifyCount = (mkObserver []).NotifyCount + 1 ∧
    (mkObserver []).OnRep_GameplayTags.GameplayTagContainer
      = (mkObserver []).GameplayTagContainer ∧
    ((mkObserver []).ReceiveSnapshot (mkTags ["X"])).NotifyCount
      = (mkObserver []).NotifyCount + 1 ∧
    (((mkObserver []).ReceiveSnapshot (mkTags ["X"])).ReceiveSnapshot
      (mkTags ["X", "Y"])).NotifyCount = (mkObserver []).NotifyCount + 2 ∧
    (((mkObserver []).ReceiveSnapshot (mkTags ["X"])).ReceiveSnapshot
      (mkTags ["X", "Y"])).GameplayTagContainer = mkTags ["X", "Y"] :=
  C8_one_notification_per_snapshot (mkObserver []) (mkTags ["X"]) (mkTags ["X", "Y"])
    (by decide) (by decide)

/-- C9: single add and remove result.  With an owner that has authority,
`AddGameplayTag_Internal` returns true exactly when the tag was absent before
the call and is present after it, and returns false leaving the component
unchanged when the tag was already present; `RemoveGameplayTag_Internal`
returns true exactly when the tag was present before and is absent after, and
returns false leaving the component unchanged when the tag was already
absent.  A tag that was absent is added: the add returns true and the tag is
present afterwards; a tag that was present is removed: the remove returns true
and the tag is absent afterwards.  No other tag is touched: after the add a
tag is present exactly when it was present before or is the given tag, after
the remove exactly when it was present before and is not the given tag. -/
theorem C9_single_add_remove_result (c : UGameplayTagComponent)
    (h : c.LacksAuthority = false) (Tag : FGameplayTag) :
    ((c.AddGameplayTag_Internal Tag).1 = true ↔
      (c.GameplayTagContainer.HasTag Tag = false ∧
        (c.AddGameplayTag_Internal Tag).2.GameplayTagContainer.HasTag Tag = true)) ∧
    (c.GameplayTagContainer.HasTag Tag = true → c.AddGameplayTag_Internal Tag = (false, c)) ∧
    ((c.RemoveGameplayTag_Internal Tag).1 = true ↔
      (c.GameplayTagContainer.HasTag Tag = true ∧
        (c.RemoveGameplayTag_Internal Tag).2.GameplayTagContainer.HasTag Tag = false)) ∧
    (c.GameplayTagContainer.HasTag Tag = false →
      c.RemoveGameplayTag_Internal Tag = (false, c)) ∧
    (c.GameplayTagContainer.HasTag Tag = false →
      (c.AddGameplayTag_Internal Tag).1 = true ∧
        (c.AddGameplayTag_Internal Tag).2.GameplayTagContainer.HasTag Tag = true) ∧
    (c.GameplayTagContainer.HasTag Tag = true →
      (c.RemoveGameplayTag_Internal Tag).1 = true ∧
        (c.RemoveGameplayTag_Internal Tag).2.GameplayTagContainer.HasTag Tag = false) ∧
    (∀ Other, (c.AddGameplayTag_Internal Tag).2.GameplayTagContainer.HasTag Other
      = (c.GameplayTagContainer.HasTag Other || decide (Other = Tag))) ∧
    (∀ Other, (c.RemoveGameplayTag_Internal Tag).2.GameplayTagContainer.HasTag Other
      = (c.GameplayTagContainer.HasTag Other && !decide (Other = Tag))) := by
  have hAdd : ∀ Other, (c.AddGameplayTag_Internal Tag).2.GameplayTagContainer.HasTag Other
      = (c.GameplayTagContainer.HasTag Other || decide (Other = Tag)) := by
    intro Other
    unfold AddGameplayTag_Internal
    cases hT : c.GameplayTagContainer.HasTag Tag
    · simp [h, HasTag_AddTag]
    · by_cases hO : Other = Tag
      · subst hO; simp [h, hT]
      · simp [h, hT, hO]
  have hRem : ∀ Other, (c.RemoveGameplayTag_Internal Tag).2.GameplayTagContainer.HasTag Other
      = (c.GameplayTagContainer.HasTag Other && !decide (Other = Tag)) := by
    intro Other
    unfold RemoveGameplayTag_Internal
    cases hT : c.GameplayTagContainer.HasTag Tag
    · by_cases hO : Other = Tag
      · subst hO; simp [h, hT]
      · simp [h, hT, hO]
    · simp [h, HasTag_RemoveTag]
  have hAddRet : (c.AddGameplayTag_Internal Tag).1 = !c.GameplayTagContainer.HasTag Tag := by
    unfold AddGameplayTag_Internal
    cases hT : c.GameplayTagContainer.HasTag Tag <;> simp [h]
  have hRemRet : (c.RemoveGameplayTag_Internal Tag).1 = c.GameplayTagContainer.HasTag Tag := by
    unfold RemoveGameplayTag_Internal
    cases hT : c.GameplayTagContainer.HasTag Tag <;> simp [h]
  refine ⟨?_, ?_, ?_, ?_, ?_, ?_, hAdd, hRem⟩
  · rw [hAddRet, hAdd]
    cases hT : c.GameplayTagContainer.HasTag Tag <;> simp
  · intro hT
    exact AddGameplayTag_Internal_noop c Tag (Or.inr hT)
  · rw [hRemRet, hRem]
    cases hT : c.GameplayTagContainer.HasTag Tag <;> simp
  · intro hT
    exact RemoveGameplayTag_Internal_noop c Tag (Or.inr hT)
  · intro hT
    rw [hAddRet, hAdd, hT]
    simp
  · intro hT
    rw [hRemRet, hRem, hT]
    simp

/-- Witness of C9: an authority holding "A" is asked to add the tag "B", which
was absent, and to remove the tag "A", which was present. -/
theorem C9_single_add_remove_result_witness :
    (((mkAuthority ["A"]).AddGameplayTag_Internal (mkTag "B")).1 = true ∧
      ((mkAuthority ["A"]).AddGameplayTag_Internal
        (mkTag "B")).2.GameplayTagContainer.HasTag (mkTag "B") = true) ∧
    (((mkAuthority ["A"]).RemoveGameplayTag_Internal (mkTag "A")).1 = true ∧
      ((mkAuthority ["A"]).RemoveGameplayTag_Internal
        (mkTag "A")).2.GameplayTagContainer.HasTag (mkTag "A") = false) :=
  ⟨(C9_single_add_remove_result (mkAuthority ["A"]) (by decide) (mkTag "B")).2.2.2.2.1
      (by decide),
    (C9_single_add_remove_result (mkAuthority ["A"]) (by decide) (mkTag "A")).2.2.2.2.2.1
      (by decide)⟩

/-- C10: batch add result.  With an owner that has authority,
`AddGameplayTags_Internal` leaves the union of the tag set and the batch (a tag
is present afterwards exactly when it was present before or is in the batch,
so the tags of the batch already present do not keep the others out) and
returns true exactly when at least one tag of the batch was not in the set. -/
theorem C10_batch_add_result (c : UGameplayTagComponent) (h : c.LacksAuthority = false)
    (NewTags : FGameplayTagContainer) :
    (∀ Tag, (c.AddGameplayTags_Internal NewTags).2.GameplayTagContainer.HasTag Tag
      = (c.GameplayTagContainer.HasTag Tag || NewTags.HasTag Tag)) ∧
    ((c.AddGameplayTags_Internal NewTags).1 = true ↔
      ∃ Tag, NewTags.HasTag Tag = true ∧ c.GameplayTagContainer.HasTag Tag = false) := by
  unfold AddGameplayTags_Internal
  simp only [h, Bool.false_eq_true, if_false]
  constructor
  · intro Tag
    rw [AddGameplayTags_Loop_HasTag]
    rfl
  · rw [AddGameplayTags_Loop_changed]
    simp [HasTag_iff]

/-- Witness of C10: an authority holding "A" is given the batch of "A" and "B". -/
theorem C10_batch_add_result_witness :
    (∀ Tag, ((mkAuthority ["A"]).AddGameplayTags_Internal
        (mkTags ["A", "B"])).2.GameplayTagContainer.HasTag Tag
      = ((mkAuthority ["A"]).GameplayTagContainer.HasTag Tag
          || (mkTags ["A", "B"]).HasTag Tag)) ∧
    (((mkAuthority ["A"]).AddGameplayTags_Internal (mkTags ["A", "B"])).1 = true ↔
      ∃ Tag, (mkTags ["A", "B"]).HasTag Tag = true ∧
        (mkAuthority ["A"]).GameplayTagContainer.HasTag Tag = false) :=
  C10_batch_add_result (mkAuthority ["A"]) (by decide) (mkTags ["A", "B"])

/-- C11: batch remove result.  With an owner that has authority,
`RemoveGameplayTags_Internal` leaves the tag set minus the batch (a tag is
present afterwards exactly when it was present before and is not in the batch,
so the tags of the batch that were absent are passed over) and returns true
exactly when at least one tag of the batch was in the set.  On the set of "A"
and "B" the batch of "B" and "C" returns true and leaves the set of "A". -/
theorem C11_batch_remove_result (c : UGameplayTagComponent) (h : c.LacksAuthority = false)
    (TagsToRemove : FGameplayTagContainer) :
    (∀ Tag, (c.RemoveGameplayTags_Internal TagsToRemove).2.GameplayTagContainer.HasTag Tag
      = (c.GameplayTagContainer.HasTag Tag && !TagsToRemove.HasTag Tag)) ∧
    ((c.RemoveGameplayTags_Internal TagsToRemove).1 = true ↔
      ∃ Tag, TagsToRemove.HasTag Tag = true ∧ c.GameplayTagContainer.HasTag Tag = true) ∧
    (mkAuthority ["A", "B"]).RemoveGameplayTags_Internal (mkTags ["B", "C"])
      = (true, mkAuthority ["A"]) := by
  refine ⟨?_, ?_, by decide⟩
  · intro Tag
    unfold RemoveGameplayTags_Internal
    simp only [h, Bool.false_eq_true, if_false]
    rw [RemoveGameplayTags_Loop_HasTag]
    rfl
  · unfold RemoveGameplayTags_Internal
    simp only [h, Bool.false_eq_true, if_false]
    rw [RemoveGameplayTags_Loop_changed]
    simp [HasTag_iff]

/-- Witness of C11: an authority holding "A" and "B" is given the batch of "B"
and "C". -/
theorem C11_batch_remove_result_witness :
    (∀ Tag, ((mkAuthority ["A", "B"]).RemoveGameplayTags_Internal
        (mkTags ["B", "C"])).2.GameplayTagContainer.HasTag Tag
      = ((mkAuthority ["A", "B"]).GameplayTagContainer.HasTag Tag
          && !(mkTags ["B", "C"]).HasTag Tag)) ∧
    (((mkAuthority ["A", "B"]).RemoveGameplayTags_Internal (mkTags ["B", "C"])).1 = true ↔
      ∃ Tag, (mkTags ["B", "C"]).HasTag Tag = true ∧
        (mkAuthority ["A", "B"]).GameplayTagContainer.HasTag Tag = true) ∧
    (mkAuthority ["A", "B"]).RemoveGameplayTags_Internal (mkTags ["B", "C"])
      = (true, mkAuthority ["A"]) :=
  C11_batch_remove_result (mkAuthority ["A", "B"]) (by decide) (mkTags ["B", "C"])

/-- C12: no memory of prior state.  With an owner that has authority, whatever
the tag set held before: after `AddGameplayTag_Internal` of a tag followed by
`RemoveGameplayTag_Internal` of it `HasGameplayTag` is false for that tag, and
after the remove followed by the add it is true. -/
theorem C12_no_memory_of_prior_state (c : UGameplayTagComponent)
    (h : c.LacksAuthority = false) (Tag : FGameplayTag) :
    ((c.AddGameplayTag_Internal Tag).2.RemoveGameplayTag_Internal Tag).2.HasGameplayTag Tag
      = false ∧
    ((c.RemoveGameplayTag_Internal Tag).2.AddGameplayTag_Internal Tag).2.HasGameplayTag Tag
      = true := by
  have hl : ∀ (C : FGameplayTagContainer),
      ({ c with GameplayTagContainer := C } : UGameplayTagComponent).LacksAuthority = false := by
    intro C; simpa [LacksAuthority, GetOwner] using h
  unfold HasGameplayTag
  constructor
  · cases hT : c.GameplayTagContainer.HasTag Tag
    · simp [AddGameplayTag_Internal, RemoveGameplayTag_Internal, h, hT, hl, HasTag_AddTag,
        HasTag_RemoveTag]
    · simp [AddGameplayTag_Internal, RemoveGameplayTag_Internal, h, hT, HasTag_RemoveTag]
  · cases hT : c.GameplayTagContainer.HasTag Tag
    · simp [AddGameplayTag_Internal, RemoveGameplayTag_Internal, h, hT, HasTag_AddTag]
    · simp [AddGameplayTag_Internal, RemoveGameplayTag_Internal, h, hT, hl, HasTag_AddTag,
        HasTag_RemoveTag]

/-- Witness of C12: an authority holding "A", with the tag "A" and so with a
tag that was present before. -/
theorem C12_no_memory_of_prior_state_witness :
    (((mkAuthority ["A"]).AddGameplayTag_Internal (mkTag "A")).2.RemoveGameplayTag_Internal
      (mkTag "A")).2.HasGameplayTag (mkTag "A") = false ∧
    (((mkAuthority ["A"]).RemoveGameplayTag_Internal (mkTag "A")).2.AddGameplayTag_Internal
      (mkTag "A")).2.HasGameplayTag (mkTag "A") = true :=
  C12_no_memory_of_prior_state (mkAuthority ["A"]) (by decide) (mkTag "A")

/-- C13: idempotent apply.  For each of the four `_Internal` functions, in
every state and so on the Authority, applying the same request a second time
in a row returns false and leaves the component, its tag set included, as the
first application left it; a `Server..._Implementation` handler that is
delivered the same request twice leaves the component as after the first
delivery.  On the empty set, requesting "Status.Stunned" twice holds the tag
after the first request, returns false the second time and leaves a set of
size 1. -/
theorem C13_idempotent_apply (c : UGameplayTagComponent) (Tag : FGameplayTag)
    (Tags : FGameplayTagContainer) :
    ((c.AddGameplayTag_Internal Tag).2.AddGameplayTag_Internal Tag
        = (false, (c.AddGameplayTag_Internal Tag).2) ∧
      (c.RemoveGameplayTag_Internal Tag).2.RemoveGameplayTag_Internal Tag
        = (false, (c.RemoveGameplayTag_Internal Tag).2) ∧
      (c.AddGameplayTags_Internal Tags).2.AddGameplayTags_Internal Tags
        = (false, (c.AddGameplayTags_Internal Tags).2) ∧
      (c.RemoveGameplayTags_Internal Tags).2.RemoveGameplayTags_Internal Tags
        = (false, (c.RemoveGameplayTags_Internal Tags).2)) ∧
    ((c.ServerAddGameplayTag_Implementation Tag).ServerAddGameplayTag_Implementation Tag
        = c.ServerAddGameplayTag_Implementation Tag ∧
      (c.ServerRemoveGameplayTag_Implementation Tag).ServerRemoveGameplayTag_Implementation Tag
        = c.ServerRemoveGameplayTag_Implementation Tag ∧
      (c.ServerAddGameplayTags_Implementation Tags).ServerAddGameplayTags_Implementation Tags
        = c.ServerAddGameplayTags_Implementation Tags ∧
      (c.ServerRemoveGameplayTags_Implementation Tags).ServerRemoveGameplayTags_Implementation
          Tags
        = c.ServerRemoveGameplayTags_Implementation Tags) ∧
    (((mkAuthority []).RequestAddGameplayTag (mkTag "Status.Stunned")).HasGameplayTag
        (mkTag "Status.Stunned") = true ∧
      (((mkAuthority []).RequestAddGameplayTag
        (mkTag "Status.Stunned")).AddGameplayTag_Internal (mkTag "Status.Stunned")).1 = false ∧
      (((mkAuthority []).RequestAddGameplayTag (mkTag "Status.Stunned")).RequestAddGameplayTag
        (mkTag "Status.Stunned")).GameplayTagContainer.GameplayTags.length = 1) := by
  have p1 := AddGameplayTag_Internal_post c Tag
  have p2 := RemoveGameplayTag_Internal_post c Tag
  have p3 := AddGameplayTags_Internal_post c Tags
  have p4 := RemoveGameplayTags_Internal_post c Tags
  have k1 := finish_keeps (c.AddGameplayTag_Internal Tag)
  have k2 := finish_keeps (c.RemoveGameplayTag_Internal Tag)
  have k3 := finish_keeps (c.AddGameplayTags_Internal Tags)
  have k4 := finish_keeps (c.RemoveGameplayTags_Internal Tags)
  refine ⟨⟨?_, ?_, ?_, ?_⟩, ⟨?_, ?_, ?_, ?_⟩, by decide⟩
  · exact AddGameplayTag_Internal_noop _ _ p1
  · exact RemoveGameplayTag_Internal_noop _ _ p2
  · exact AddGameplayTags_Internal_noop _ _ p3
  · exact RemoveGameplayTags_Internal_noop _ _ p4
  · have hn := AddGameplayTag_Internal_noop (c.ServerAddGameplayTag_Implementation Tag) Tag
      (by unfold ServerAddGameplayTag_Implementation; rw [k1.1, k1.2]; exact p1)
    simp only [ServerAddGameplayTag_Implementation] at hn ⊢
    simp [hn]
  · have hn := RemoveGameplayTag_Internal_noop (c.ServerRemoveGameplayTag_Implementation Tag)
      Tag (by unfold ServerRemoveGameplayTag_Implementation; rw [k2.1, k2.2]; exact p2)
    simp only [ServerRemoveGameplayTag_Implementation] at hn ⊢
    simp [hn]
  · have hn := AddGameplayTags_Internal_noop (c.ServerAddGameplayTags_Implementation Tags) Tags
      (by unfold ServerAddGameplayTags_Implementation; rw [k3.1, k3.2]; exact p3)
    simp only [ServerAddGameplayTags_Implementation] at hn ⊢
    simp [hn]
  · have hn := RemoveGameplayTags_Internal_noop (c.ServerRemoveGameplayTags_Implementation Tags)
      Tags (by unfold ServerRemoveGameplayTags_Implementation; rw [k4.1, k4.2]; exact p4)
    simp only [ServerRemoveGameplayTags_Implementation] at hn ⊢
    simp [hn]

/-- C15: queries are role independent and read only.  For any two components
holding equal tag sets (set equality), whatever their roles and owners,
`HasGameplayTag`, `HasAllGameplayTags` and `HasAnyGameplayTags` return equal
results for every argument and `GetAllGameplayTags` returns equal tag sets,
identical ones when the stored containers are identical.  Each query computes
a value from the stored container only, and `GetAllGameplayTags` returns that
container as it is. -/
theorem C15_queries_role_independent (c d : UGameplayTagComponent)
    (h : c.GameplayTagContainer.SameTags d.GameplayTagContainer = true) :
    (∀ Tag, c.HasGameplayTag Tag = d.HasGameplayTag Tag) ∧
    (∀ Tags, c.HasAllGameplayTags Tags = d.HasAllGameplayTags Tags) ∧
    (∀ Tags, c.HasAnyGameplayTags Tags = d.HasAnyGameplayTags Tags) ∧
    c.GetAllGameplayTags.SameTags d.GetAllGameplayTags = true ∧
    (c.GameplayTagContainer = d.GameplayTagContainer →
      c.GetAllGameplayTags = d.GetAllGameplayTags) ∧
    c.GetAllGameplayTags = c.GameplayTagContainer := by
  have hx := (SameTags_iff _ _).1 h
  have hf : (fun Tag => c.GameplayTagContainer.HasTag Tag)
      = (fun Tag => d.GameplayTagContainer.HasTag Tag) := funext hx
  refine ⟨hx, ?_, ?_, h, fun e => e, rfl⟩
  · intro Tags
    simp only [HasAllGameplayTags, FGameplayTagContainer.HasAll, hf]
  · intro Tags
    simp only [HasAnyGameplayTags, FGameplayTagContainer.HasAny, hf]

/-- Witness of C15: an authority holding "A" and "B" and an observer mirroring
"B" and "A". -/
theorem C15_queries_role_independent_witness :
    (∀ Tag, (mkAuthority ["A", "B"]).HasGameplayTag Tag
      = (mkObserver ["B", "A"]).HasGameplayTag Tag) ∧
    (∀ Tags, (mkAuthority ["A", "B"]).HasAllGameplayTags Tags
      = (mkObserver ["B", "A"]).HasAllGameplayTags Tags) ∧
    (∀ Tags, (mkAuthority ["A", "B"]).HasAnyGameplayTags Tags
      = (mkObserver ["B", "A"]).HasAnyGameplayTags Tags) ∧
    (mkAuthority ["A", "B"]).GetAllGameplayTags.SameTags
      (mkObserver ["B", "A"]).GetAllGameplayTags = true ∧
    ((mkAuthority ["A", "B"]).GameplayTagContainer = (mkObserver ["B", "A"]).GameplayTagContainer →
      (mkAuthority ["A", "B"]).GetAllGameplayTags = (mkObserver ["B", "A"]).GetAllGameplayTags) ∧
    (mkAuthority ["A", "B"]).GetAllGameplayTags = (mkAuthority ["A", "B"]).GameplayTagContainer :=
  C15_queries_role_independent (mkAuthority ["A", "B"]) (mkObserver ["B", "A"]) (by decide)

/-- C16: validation gate of the forwarded requests.
`ServerAddGameplayTags_Validate` and `ServerRemoveGameplayTags_Validate` return
true exactly when every tag of the batch is valid and allowed by
`IsTagAllowed`; a batch that fails is refused whole, the component being left
as it was; and `IsTagAllowed` accepts a tag exactly when it is valid. -/
theorem C16_validation_gate (c : UGameplayTagComponent) (Tags : FGameplayTagContainer)
    (Tag : FGameplayTag) :
    (c.ServerAddGameplayTags_Validate Tags = true ↔
      ∀ t, Tags.HasTag t = true → t.IsValid = true ∧ c.IsTagAllowed t = true) ∧
    (c.ServerRemoveGameplayTags_Validate Tags = true ↔
      ∀ t, Tags.HasTag t = true → t.IsValid = true ∧ c.IsTagAllowed t = true) ∧
    (c.ServerAddGameplayTags_Validate Tags = false →
      c.ReceiveServerRPC (ServerRPC.AddGameplayTags Tags) = c) ∧
    (c.ServerRemoveGameplayTags_Validate Tags = false →
      c.ReceiveServerRPC (ServerRPC.RemoveGameplayTags Tags) = c) ∧
    (c.IsTagAllowed Tag = true ↔ Tag.IsValid = true) := by
  have hAll : c.ValidateTags_Loop Tags.GameplayTags = true ↔
      ∀ t, Tags.HasTag t = true → t.IsValid = true ∧ c.IsTagAllowed t = true := by
    rw [ValidateTags_Loop_eq_all, List.all_eq_true]
    simp only [Bool.and_eq_true, HasTag_iff]
  refine ⟨hAll, hAll, ?_, ?_, Iff.rfl⟩
  · intro hV; simp [ReceiveServerRPC, hV]
  · intro hV; simp [ReceiveServerRPC, hV]

/-- C17: an empty batch is a no-op.  On the Authority, with an empty batch
`AddGameplayTags_Internal` and `RemoveGameplayTags_Internal` return false and
leave the component unchanged, and the batch requests and RPC handlers leave
the whole component, the dirty marking of the owner included, as it was. -/
theorem C17_empty_batch_is_noop (c : UGameplayTagComponent) (h : c.IsAuthority) :
    c.AddGameplayTags_Internal { GameplayTags := [] } = (false, c) ∧
    c.RemoveGameplayTags_Internal { GameplayTags := [] } = (false, c) ∧
    c.RequestAddGameplayTags { GameplayTags := [] } = c ∧
    c.RequestRemoveGameplayTags { GameplayTags := [] } = c ∧
    c.ServerAddGameplayTags_Implementation { GameplayTags := [] } = c ∧
    c.ServerRemoveGameplayTags_Implementation { GameplayTags := [] } = c := by
  obtain ⟨hRole, hAuth⟩ := h
  have hR : ¬ (c.GetOwnerRole.toNat < ENetRole.ROLE_Authority.toNat) := by
    rw [hRole]; exact Nat.lt_irrefl _
  have hA : c.AddGameplayTags_Internal { GameplayTags := [] } = (false, c) := by
    simp [AddGameplayTags_Internal, hAuth, AddGameplayTags_Loop]
  have hD : c.RemoveGameplayTags_Internal { GameplayTags := [] } = (false, c) := by
    simp [RemoveGameplayTags_Internal, hAuth, RemoveGameplayTags_Loop]
  refine ⟨hA, hD, ?_, ?_, ?_, ?_⟩
  · simp only [RequestAddGameplayTags, hR, if_false, hA]; simp
  · simp only [RequestRemoveGameplayTags, hR, if_false, hD]; simp
  · simp only [ServerAddGameplayTags_Implementation, hA]; simp
  · simp only [ServerRemoveGameplayTags_Implementation, hD]; simp

/-- Witness of C17: an authority holding "A" is given the empty batch. -/
theorem C17_empty_batch_is_noop_witness :
    (mkAuthority ["A"]).AddGameplayTags_Internal { GameplayTags := [] }
      = (false, mkAuthority ["A"]) ∧
    (mkAuthority ["A"]).RemoveGameplayTags_Internal { GameplayTags := [] }
      = (false, mkAuthority ["A"]) ∧
    (mkAuthority ["A"]).RequestAddGameplayTags { GameplayTags := [] } = mkAuthority ["A"] ∧
    (mkAuthority ["A"]).RequestRemoveGameplayTags { GameplayTags := [] } = mkAuthority ["A"] ∧
    (mkAuthority ["A"]).ServerAddGameplayTags_Implementation { GameplayTags := [] }
      = mkAuthority ["A"] ∧
    (mkAuthority ["A"]).ServerRemoveGameplayTags_Implementation { GameplayTags := [] }
      = mkAuthority ["A"] :=
  C17_empty_batch_is_noop (mkAuthority ["A"]) (by decide)

/-- C18: a batch equals the single operations in turn.  In every state and so
on the Authority, `AddGameplayTags_Internal` leaves the same component, and so
the same tag set, as `AddGameplayTag_Internal` applied to each tag of the
batch in turn, and returns the disjunction of the individual results;
likewise `RemoveGameplayTags_Internal` against `RemoveGameplayTag_Internal`. -/
theorem C18_batch_equals_singles_in_turn (c : UGameplayTagComponent)
    (Tags : FGameplayTagContainer) :
    c.AddGameplayTags_Internal Tags = c.AddGameplayTag_Each Tags.GameplayTags ∧
    c.RemoveGameplayTags_Internal Tags = c.RemoveGameplayTag_Each Tags.GameplayTags := by
  by_cases h : c.LacksAuthority = true
  · rw [AddGameplayTag_Each_without_authority _ c h,
      RemoveGameplayTag_Each_without_authority _ c h]
    simp [AddGameplayTags_Internal, RemoveGameplayTags_Internal, h]
  · have hF : c.LacksAuthority = false := Bool.eq_false_iff.mpr h
    rw [AddGameplayTag_Each_with_authority _ c hF, RemoveGameplayTag_Each_with_authority _ c hF]
    simp [AddGameplayTags_Internal, RemoveGameplayTags_Internal, hF]

/-- C19: add and remove batch round trip.  With an owner that has authority,
`AddGameplayTags_Internal` of a batch followed by `RemoveGameplayTags_Internal`
of the same batch leaves the component with the tags it held before that are
not in the batch, in their order, so the tag set minus the batch; when no tag
of the batch was in the set, the component is exactly as it was. -/
theorem C19_add_remove_round_trip (c : UGameplayTagComponent) (h : c.LacksAuthority = false)
    (Tags : FGameplayTagContainer) :
    ((c.AddGameplayTags_Internal Tags).2.RemoveGameplayTags_Internal Tags).2
      = { c with
          GameplayTagContainer :=
            { GameplayTags :=
                c.GameplayTagContainer.GameplayTags.filter (fun Tag => !Tags.HasTag Tag) } } ∧
    (∀ Tag,
      ((c.AddGameplayTags_Internal Tags).2.RemoveGameplayTags_Internal
          Tags).2.GameplayTagContainer.HasTag Tag
        = (c.GameplayTagContainer.HasTag Tag && !Tags.HasTag Tag)) ∧
    ((∀ Tag ∈ Tags.GameplayTags, c.GameplayTagContainer.HasTag Tag = false) →
      ((c.AddGameplayTags_Internal Tags).2.RemoveGameplayTags_Internal Tags).2 = c) := by
  obtain ⟨E, hE, hM⟩ :=
    AddGameplayTags_Loop_eq_append Tags.GameplayTags c.GameplayTagContainer false
  have hEq : ((c.AddGameplayTags_Internal Tags).2.RemoveGameplayTags_Internal Tags).2
      = { c with
          GameplayTagContainer :=
            { GameplayTags :=
                c.GameplayTagContainer.GameplayTags.filter (fun Tag => !Tags.HasTag Tag) } } := by
    simp only [AddGameplayTags_Internal, RemoveGameplayTags_Internal, h, Bool.false_eq_true,
      if_false, LacksAuthority_with_container, RemoveGameplayTags_Loop_eq_filter, hE,
      List.filter_append]
    have hNone : E.filter (fun x => decide (x ∉ Tags.GameplayTags)) = [] := by
      rw [List.filter_eq_nil_iff]
      intro x hx
      simp [hM x hx]
    rw [hNone, List.append_nil]
    simp [FGameplayTagContainer.HasTag]
  refine ⟨hEq, ?_, ?_⟩
  · intro Tag
    rw [hEq]
    simp only [FGameplayTagContainer.HasTag, List.mem_filter]
    by_cases h1 : Tag ∈ c.GameplayTagContainer.GameplayTags <;>
      by_cases h2 : Tag ∈ Tags.GameplayTags <;> simp [h1, h2]
  · intro hDis
    rw [hEq]
    have hAll : c.GameplayTagContainer.GameplayTags.filter (fun Tag => !Tags.HasTag Tag)
        = c.GameplayTagContainer.GameplayTags := by
      rw [List.filter_eq_self]
      intro x hx
      cases hT : Tags.HasTag x
      · rfl
      · have := hDis x ((HasTag_iff _ _).1 hT)
        rw [(HasTag_iff _ _).2 hx] at this
        exact absurd this (by simp)
    rw [hAll]

/-- Witness of C19: an authority holding "A" and "B" is given the batch of "B"
and "C", and an authority holding "A" the batch of "B" and "C". -/
theorem C19_add_remove_round_trip_witness :
    (((mkAuthority ["A", "B"]).AddGameplayTags_Internal
        (mkTags ["B", "C"])).2.RemoveGameplayTags_Internal (mkTags ["B", "C"])).2
      = mkAuthority ["A"] ∧
    (((mkAuthority ["A"]).AddGameplayTags_Internal
        (mkTags ["B", "C"])).2.RemoveGameplayTags_Internal (mkTags ["B", "C"])).2
      = mkAuthority ["A"] :=
  ⟨(C19_add_remove_round_trip (mkAuthority ["A", "B"]) (by decide) (mkTags ["B", "C"])).1.trans
      (by decide),
    (C19_add_remove_round_trip (mkAuthority ["A"]) (by decide) (mkTags ["B", "C"])).2.2
      (by decide)⟩

end Properties

end GameplayTags
